import Mathlib

/-!
Shallow embedding of the olton/color conversion engine (the routines module):
color value records, format predicates, the conversion graph, derived-color
algorithms and the scheme generator, together with theorems settling the
specification claims.  JavaScript numbers are modelled as exact rationals;
the 32-bit bitwise operators are modelled on ℤ with explicit wrapping at 2^32.
-/

namespace ColorLib

/-- JS Math.round: floor of x + 1/2 (halves round toward positive infinity). -/
def jsRound (q : ℚ) : ℤ := ⌊q + 1/2⌋

/-- JS truncation toward zero, as performed by ToInt32 and by the % operator. -/
def jsTrunc (q : ℚ) : ℤ := if 0 ≤ q then ⌊q⌋ else ⌈q⌉

/-- JS % on numbers: remainder carrying the sign of the dividend. -/
def jsMod (x y : ℚ) : ℚ := x - y * jsTrunc (x / y)

/-- The unsigned 32-bit image of an integer. -/
def toUInt32 (z : ℤ) : ℕ := (z % 4294967296).toNat

/-- Reinterpret an unsigned 32-bit value as a signed 32-bit value. -/
def ofUInt32 (n : ℕ) : ℤ := if n < 2147483648 then (n : ℤ) else (n : ℤ) - 4294967296

/-- JS ToInt32 on an integer. -/
def toInt32 (z : ℤ) : ℤ := ofUInt32 (toUInt32 z)

/-- JS `x >> k`: arithmetic right shift of the signed 32-bit image. -/
def jsShr (z : ℤ) (k : ℕ) : ℤ := Int.fdiv (toInt32 z) (2 ^ k)

/-- JS `x << k` on an integer, wrapping back into signed 32-bit range. -/
def jsShl (z : ℤ) (k : ℕ) : ℤ := ofUInt32 (toUInt32 z * 2 ^ k % 4294967296)

/-- JS `x & y` on integers. -/
def jsAnd (x y : ℤ) : ℤ := ofUInt32 (Nat.land (toUInt32 x) (toUInt32 y))

/-- JS `x | y` on integers. -/
def jsOr (x y : ℤ) : ℤ := ofUInt32 (Nat.lor (toUInt32 x) (toUInt32 y))

/-- Lower-case the ASCII letters of a character, as String.prototype.toLowerCase does. -/
def toLowerChar (c : Char) : Char :=
  if 'A' ≤ c ∧ c ≤ 'Z' then Char.ofNat (c.toNat + 32) else c

/-- JS String.prototype.toLowerCase (ASCII fragment, all this library uses). -/
def jsToLower (s : String) : String := String.mk (s.data.map toLowerChar)

/-- colors/rgb.js: `class RGB { constructor(r = 0, g = 0, b = 0) }`. -/
structure RGB where
  r : ℚ
  g : ℚ
  b : ℚ
  deriving DecidableEq

/-- colors/rgba.js: `class RGBA { constructor(r = 0, g = 0, b = 0, a = 0) }`.
Note the constructor default for the alpha channel is 0. -/
structure RGBA where
  r : ℚ
  g : ℚ
  b : ℚ
  a : ℚ
  deriving DecidableEq

/-- colors/hsv.js: `class HSV { constructor(h = 0, s = 0, v = 0) }`. -/
structure HSV where
  h : ℚ
  s : ℚ
  v : ℚ
  deriving DecidableEq

/-- colors/hsl.js: `class HSL { constructor(h = 0, s = 0, l = 0) }`. -/
structure HSL where
  h : ℚ
  s : ℚ
  l : ℚ
  deriving DecidableEq

/-- colors/hsla.js: `class HSLA { constructor(h = 0, s = 0, l = 0, a = 0) }`. -/
structure HSLA where
  h : ℚ
  s : ℚ
  l : ℚ
  a : ℚ
  deriving DecidableEq

/-- colors/cmyk.js: `class CMYK { constructor(c = 0, m = 0, y = 0, k = 0) }`. -/
structure CMYK where
  c : ℚ
  m : ℚ
  y : ℚ
  k : ℚ
  deriving DecidableEq

/-- A JavaScript value in the positions the library accepts: a string, an
instance of one of the six color classes, a plain `{h, s, v}` object as pushed
by some scheme-generator branches (`pojo`: it carries h, s, v fields but is not
an HSV class instance, so every instanceof test rejects it), or any other
non-string non-color value (`other`: null, numbers, foreign objects, ...). -/
inductive ColorVal where
  | str (s : String)
  | rgb (c : RGB)
  | rgba (c : RGBA)
  | hsv (c : HSV)
  | hsl (c : HSL)
  | hsla (c : HSLA)
  | cmyk (c : CMYK)
  | pojo (c : HSV)
  | other
  deriving DecidableEq

/-- The raised errors of the engine: "Value is not a string!" (expandHexColor),
"Unknown color format!" (toRGB), and the implicit TypeError that dereferencing
a failed regex match in hex2rgb would produce. -/
inductive ColorError where
  | invalidInput
  | unknownFormat
  | typeError
  deriving DecidableEq

/-- One character of the regex class `[a-f\d]` with the `i` flag. -/
def isHexDigit (c : Char) : Bool :=
  ('0' ≤ c && c ≤ '9') || ('a' ≤ c && c ≤ 'f') || ('A' ≤ c && c ≤ 'F')

/-- Numeric value of a hex digit (0 for other characters, never relied upon). -/
def hexDigitVal (c : Char) : ℕ :=
  if '0' ≤ c ∧ c ≤ '9' then c.toNat - 48
  else if 'a' ≤ c ∧ c ≤ 'f' then c.toNat - 87
  else if 'A' ≤ c ∧ c ≤ 'F' then c.toNat - 55
  else 0

/-- The lower-case hex digit for a value below 16 (as Number.prototype.toString(16)). -/
def natToHexDigit (n : ℕ) : Char :=
  if n < 10 then Char.ofNat (n + 48) else Char.ofNat (n + 87)

/-- Base-16 digit rendering, structurally recursive on a fuel argument so that
it evaluates by kernel reduction; the fuel n + 1 always suffices because the
recursion divides by 16 each step. -/
def toBase16Go : ℕ → ℕ → List Char
  | 0, _ => []
  | fuel + 1, n =>
      if n < 16 then [natToHexDigit n]
      else toBase16Go fuel (n / 16) ++ [natToHexDigit (n % 16)]

/-- Base-16 digit list of a natural number, most significant first. -/
def toBase16 (n : ℕ) : List Char := toBase16Go (n + 1) n

/-- JS Number.prototype.toString(16) on an integer. -/
def jsToString16 (z : ℤ) : List Char :=
  if z < 0 then '-' :: toBase16 z.natAbs else toBase16 z.toNat

/-- JS Number.prototype.toString(16) on a number.  Faithful for integral values;
the fractional hex rendering of non-integral numbers is not modelled (every call
site in this development passes an integral value). -/
def jsNumToString16 (q : ℚ) : List Char := jsToString16 (jsTrunc q)

/-- The test `/(^#[0-9A-F]{6}$)|(^#[0-9A-F]{3}$)/i.test(color)` on a string. -/
def isHEXstr (s : String) : Bool :=
  match s.data with
  | [c0, c1, c2, c3, c4, c5, c6] => c0 = '#' && [c1, c2, c3, c4, c5, c6].all isHexDigit
  | [c0, c1, c2, c3] => c0 = '#' && [c1, c2, c3].all isHexDigit
  | _ => false

/-- isHEX: the regex test coerces its argument to a string first; the color
records stringify as "rgb(...)", "hsv(...)" etc., which never match, so only
genuine strings can pass. -/
def isHEX : ColorVal → Bool
  | .str s => isHEXstr s
  | _ => false

/-- isRGB: `color instanceof RGB`. -/
def isRGB : ColorVal → Bool
  | .rgb _ => true
  | _ => false

/-- isRGBA: `color instanceof RGBA`. -/
def isRGBA : ColorVal → Bool
  | .rgba _ => true
  | _ => false

/-- isHSV: `color instanceof HSV`. -/
def isHSV : ColorVal → Bool
  | .hsv _ => true
  | _ => false

/-- isHSL: `color instanceof HSL`. -/
def isHSL : ColorVal → Bool
  | .hsl _ => true
  | _ => false

/-- isHSLA: `color instanceof HSLA`. -/
def isHSLA : ColorVal → Bool
  | .hsla _ => true
  | _ => false

/-- isCMYK: `color instanceof CMYK`. -/
def isCMYK : ColorVal → Bool
  | .cmyk _ => true
  | _ => false

/-- isColor.  The source first returns false for falsy values (`!color`); every
falsy value (empty string, null, 0, NaN, ...) already fails all seven
predicates, so the disjunction alone is equivalent. -/
def isColor (v : ColorVal) : Bool :=
  isHEX v || isRGB v || isRGBA v || isHSV v || isHSL v || isHSLA v || isCMYK v

/-- colorType: first matching kind tag, HEX checked first, else "unknown". -/
def colorType (v : ColorVal) : String :=
  if isHEX v then "hex"
  else if isRGB v then "rgb"
  else if isRGBA v then "rgba"
  else if isHSV v then "hsv"
  else if isHSL v then "hsl"
  else if isHSLA v then "hsla"
  else if isCMYK v then "cmyk"
  else "unknown"

/-- The string branch of expandHexColor, on the character list: a `#xyz` of
three hex digits becomes `#xxyyzz`; a 4-character `#`-string whose tail is not
three hex digits gains a second `#` (the shorthand regex fails, replace
returns the input unchanged, and the branch prepends `#` to it); any other
`#`-string is returned unchanged; a bare string is prefixed with `#`. -/
def expandHexData : List Char → List Char
  | [c0, c1, c2, c3] =>
      if c0 = '#' then
        if isHexDigit c1 && isHexDigit c2 && isHexDigit c3 then
          ['#', c1, c1, c2, c2, c3, c3]
        else ['#', '#', c1, c2, c3]
      else ['#', c0, c1, c2, c3]
  | l => if l.head? = some '#' then l else '#' :: l

/-- The string branch of expandHexColor. -/
def expandHexString (s : String) : String := String.mk (expandHexData s.data)

/-- expandHexColor: non-string color values pass through, non-string non-colors
raise "Value is not a string!", strings go through `expandHexString`. -/
def expandHexColor : ColorVal → Except ColorError ColorVal
  | .str s => .ok (.str (expandHexString s))
  | .pojo _ => .error .invalidInput
  | .other => .error .invalidInput
  | v => .ok v

/-- Value of a pair of hex digits (each parseInt(_, 16) of a 2-digit group). -/
def hexPairVal (a b : Char) : ℚ := ((hexDigitVal a * 16 + hexDigitVal b : ℕ) : ℚ)

/-- hex2rgb: expand, then match `/^#?([a-f\d]{2})([a-f\d]{2})([a-f\d]{2})$/i`
and parse the three byte pairs.  A failed match makes the source dereference
null (TypeError). -/
def hex2rgb (s : String) : Except ColorError RGB :=
  match expandHexData s.data with
  | [c0, a, b, c, d, e, f] =>
      if c0 = '#' && [a, b, c, d, e, f].all isHexDigit then
        .ok ⟨hexPairVal a b, hexPairVal c d, hexPairVal e f⟩
      else .error .typeError
  | [a, b, c, d, e, f] =>
      if [a, b, c, d, e, f].all isHexDigit then
        .ok ⟨hexPairVal a b, hexPairVal c d, hexPairVal e f⟩
      else .error .typeError
  | _ => .error .typeError

/-- rgb2hex: `"#" + ((1 << 24) + (r << 16) + (g << 8) + b).toString(16).slice(1)`. -/
def rgb2hex (x : RGB) : String :=
  String.mk ('#' ::
    (jsNumToString16
      ((16777216 : ℚ) + (jsShl (jsTrunc x.r) 16 : ℤ) + (jsShl (jsTrunc x.g) 8 : ℤ) + x.b)).drop 1)

/-- rgb2hsv: normalize channels to [0,1], then the max/min/delta formulas with
the source's exact branch structure (including the `max==r && g<b` branch that
adds 360). -/
def rgb2hsv (x : RGB) : HSV :=
  let r := x.r / 255
  let g := x.g / 255
  let b := x.b / 255
  let M := max r (max g b)
  let m := min r (min g b)
  let delta := M - m
  let v := M
  let s := if M = 0 then 0 else 1 - m / M
  let h :=
    if M = m then 0
    else if M = r ∧ b ≤ g then 60 * ((g - b) / delta)
    else if M = r ∧ g < b then 60 * ((g - b) / delta) + 360
    else if M = g then 60 * ((b - r) / delta) + 120
    else if M = b then 60 * ((r - g) / delta) + 240
    else 0
  ⟨h, s, v⟩

/-- hsv2rgb: the six 60-degree sector algorithm.  When `Math.floor(h/60)` is
outside 0..5 no switch case assigns the channels and the JS result is NaN-like;
that fall-through is modelled as (0,0,0) and is unreachable from any hue this
development feeds in. -/
def hsv2rgb (x : HSV) : RGB :=
  let h := x.h
  let s := x.s * 100
  let v := x.v * 100
  let Hi := ⌊h / 60⌋
  let Vmin := (100 - s) * v / 100
  let a := (v - Vmin) * (jsMod h 60 / 60)
  let Vinc := Vmin + a
  let Vdec := v - a
  let rgb : ℚ × ℚ × ℚ :=
    if Hi = 0 then (v, Vinc, Vmin)
    else if Hi = 1 then (Vdec, v, Vmin)
    else if Hi = 2 then (Vmin, v, Vinc)
    else if Hi = 3 then (Vmin, Vdec, v)
    else if Hi = 4 then (Vinc, Vmin, v)
    else if Hi = 5 then (v, Vmin, Vdec)
    else (0, 0, 0)
  ⟨(jsRound (rgb.1 * 255 / 100) : ℚ), (jsRound (rgb.2.1 * 255 / 100) : ℚ),
    (jsRound (rgb.2.2 * 255 / 100) : ℚ)⟩

/-- rgb2cmyk: k = min of the inverted channels; c,m,y guarded against k = 1;
all four scaled to percent and rounded. -/
def rgb2cmyk (x : RGB) : CMYK :=
  let r := x.r / 255
  let g := x.g / 255
  let b := x.b / 255
  let k := min (1 - r) (min (1 - g) (1 - b))
  let c := if 1 - k = 0 then 0 else (1 - r - k) / (1 - k)
  let m := if 1 - k = 0 then 0 else (1 - g - k) / (1 - k)
  let y := if 1 - k = 0 then 0 else (1 - b - k) / (1 - k)
  ⟨(jsRound (c * 100) : ℚ), (jsRound (m * 100) : ℚ), (jsRound (y * 100) : ℚ),
    (jsRound (k * 100) : ℚ)⟩

/-- cmyk2rgb: red floors, green and blue ceil (the source's asymmetric rounding). -/
def cmyk2rgb (x : CMYK) : RGB :=
  ⟨(⌊255 * (1 - x.c / 100) * (1 - x.k / 100)⌋ : ℤ),
    (⌈255 * (1 - x.m / 100) * (1 - x.k / 100)⌉ : ℤ),
    (⌈255 * (1 - x.y / 100) * (1 - x.k / 100)⌉ : ℤ)⟩

/-- hsv2hsl. -/
def hsv2hsl (x : HSV) : HSL :=
  let l1 := (2 - x.s) * x.v
  let s1 := x.s * x.v
  let s2 :=
    if l1 = 0 then 0
    else
      let d := if l1 ≤ 1 then l1 else 2 - l1
      if d = 0 then 0 else s1 / d
  ⟨x.h, s2, l1 / 2⟩

/-- hsl2hsv. -/
def hsl2hsv (x : HSL) : HSV :=
  let l2 := x.l * 2
  let s2 := x.s * (if l2 ≤ 1 then l2 else 2 - l2)
  let v := (l2 + s2) / 2
  let s3 := if l2 + s2 = 0 then 0 else 2 * s2 / (l2 + s2)
  ⟨x.h, s3, v⟩

/-- toRGB: the universal normalizer; the one conversion that raises
"Unknown color format!". -/
def toRGB : ColorVal → Except ColorError RGB
  | .rgb c => .ok c
  | .rgba c => .ok ⟨c.r, c.g, c.b⟩
  | .hsv c => .ok (hsv2rgb c)
  | .hsl c => .ok (hsv2rgb (hsl2hsv c))
  | .hsla c => .ok (hsv2rgb (hsl2hsv ⟨c.h, c.s, c.l⟩))
  | .str s => if isHEXstr s then hex2rgb s else .error .unknownFormat
  | .cmyk c => .ok (cmyk2rgb c)
  | _ => .error .unknownFormat

/-- toHEX: strings are expanded in place, everything else goes through toRGB. -/
def toHEX (v : ColorVal) : Except ColorError String :=
  match v with
  | .str s => .ok (expandHexString s)
  | _ => (toRGB v).map rgb2hex

/-- toRGBA.  The alpha parameter has no default: `none` models a call without
an alpha argument.  For RGBA input a truthy alpha overwrites the field; for
other input `new RGBA(r, g, b, alpha)` is built, where an undefined alpha
falls back to the constructor default a = 0. -/
def toRGBA (v : ColorVal) (alpha : Option ℚ) : Except ColorError RGBA :=
  match v with
  | .rgba c =>
      .ok (match alpha with
        | some a => if a = 0 then c else { c with a := a }
        | none => c)
  | _ => (toRGB v).map fun r => ⟨r.r, r.g, r.b, alpha.getD 0⟩

/-- toHSV. -/
def toHSV (v : ColorVal) : Except ColorError HSV := (toRGB v).map rgb2hsv

/-- toHSL. -/
def toHSL (v : ColorVal) : Except ColorError HSL :=
  (toRGB v).map fun r => hsv2hsl (rgb2hsv r)

/-- toHSLA.  The parameter default is alpha = 1; for an HSLA input a truthy
alpha overwrites the field, otherwise the converted HSL gets the alpha. -/
def toHSLA (v : ColorVal) (alpha : Option ℚ) : Except ColorError HSLA :=
  let a := alpha.getD 1
  match v with
  | .hsla c => .ok (if a = 0 then c else { c with a := a })
  | _ =>
      (toRGB v).map fun r =>
        let x := hsv2hsl (rgb2hsv r)
        ⟨x.h, x.s, x.l, a⟩

/-- toCMYK. -/
def toCMYK (v : ColorVal) : Except ColorError CMYK := (toRGB v).map rgb2cmyk

/-- toColor: generic dispatcher on the lower-cased mode string; an unknown
mode returns the input unchanged. -/
def toColor (v : ColorVal) (mode : String) (alpha : ℚ) : Except ColorError ColorVal :=
  match jsToLower mode with
  | "hex" => (toHEX v).map .str
  | "rgb" => (toRGB v).map .rgb
  | "rgba" => (toRGBA v (some alpha)).map .rgba
  | "hsl" => (toHSL v).map .hsl
  | "hsla" => (toHSLA v (some alpha)).map .hsla
  | "hsv" => (toHSV v).map .hsv
  | "cmyk" => (toCMYK v).map .cmyk
  | _ => .ok v

deriving instance DecidableEq for Except

/-- equal: false unless both are valid colors, else comparison of the
HEX-normalized forms.  toHEX never raises on a valid color, so comparing the
Except values coincides with the source's string comparison there. -/
def equal (c1 c2 : ColorVal) : Bool :=
  if !isColor c1 || !isColor c2 then false
  else decide (toHEX c1 = toHEX c2)

/-- isDark: undefined (`none`) for non-colors, else the YIQ < 128 test. -/
def isDark (v : ColorVal) : Option Bool :=
  if !isColor v then none
  else
    match toRGB v with
    | .ok c => some (decide ((c.r * 299 + c.g * 587 + c.b * 114) / 1000 < 128))
    | .error _ => none

/-- isLight: `!isDark(color)`; JS negation turns undefined into true, so this
always produces a boolean. -/
def isLight (v : ColorVal) : Bool :=
  match isDark v with
  | none => true
  | some b => !b

/-- rgb2websafe: each channel rounded to the nearest multiple of 51. -/
def rgb2websafe (x : RGB) : RGB :=
  ⟨(jsRound (x.r / 51) : ℚ) * 51, (jsRound (x.g / 51) : ℚ) * 51,
    (jsRound (x.b / 51) : ℚ) * 51⟩

/-- rgba2websafe: websafe snap of the channels, alpha carried over. -/
def rgba2websafe (x : RGBA) : RGBA :=
  let w := rgb2websafe ⟨x.r, x.g, x.b⟩
  ⟨w.r, w.g, w.b, x.a⟩

/-- hex2websafe. -/
def hex2websafe (s : String) : Except ColorError String :=
  (hex2rgb s).map fun r => rgb2hex (rgb2websafe r)

/-- hsv2websafe. -/
def hsv2websafe (x : HSV) : Except ColorError HSV :=
  (toRGB (.hsv x)).map fun r => rgb2hsv (rgb2websafe r)

/-- hsl2websafe. -/
def hsl2websafe (x : HSL) : Except ColorError HSL :=
  (toRGB (.hsl x)).map fun r => hsv2hsl (rgb2hsv (rgb2websafe r))

/-- cmyk2websafe. -/
def cmyk2websafe (x : CMYK) : CMYK := rgb2cmyk (rgb2websafe (cmyk2rgb x))

/-- websafe dispatcher: hex, RGB, RGBA, HSV, HSL, CMYK each get their snapping
path; there is no HSLA branch, so HSLA values (like every unrecognized value)
fall through to the final `return color` unchanged. -/
def websafe (v : ColorVal) : Except ColorError ColorVal :=
  match v with
  | .str s => if isHEXstr s then (hex2websafe s).map .str else .ok (.str s)
  | .rgb c => .ok (.rgb (rgb2websafe c))
  | .rgba c => .ok (.rgba (rgba2websafe c))
  | .hsv c => (hsv2websafe c).map .hsv
  | .hsl c => (hsl2websafe c).map .hsl
  | .cmyk c => .ok (.cmyk (cmyk2websafe c))
  | v => .ok v

/-- Greedy hex-digit prefix value: the behavior of parseInt(s, 16) on the
strings this library feeds it (sign, whitespace and 0x handling never occur
here).  `none` is the NaN of a string with no leading hex digit. -/
def parseHexAux : List Char → ℕ → ℕ
  | [], acc => acc
  | c :: cs, acc => if isHexDigit c then parseHexAux cs (acc * 16 + hexDigitVal c) else acc

/-- parseInt(s, 16) as an optional natural number. -/
def parseHexDigits : List Char → Option ℕ
  | [] => none
  | c :: cs => if isHexDigit c then some (parseHexAux (c :: cs) 0) else none

/-- The per-channel clamp of lighten's calc. -/
def clamp255 (z : ℤ) : ℤ := if z > 255 then 255 else if z < 0 then 0 else z

/-- The inner `calc` of lighten: strip `#`, parseInt base 16, add the amount to
each byte extracted by shifts, clamp, and repack without zero padding.  A NaN
from a failed parse is coerced to 0 by the bitwise operators.  The source's
local names are kept: its `b` holds the middle byte and its `g` the low one. -/
def lightenCalc (hex : String) (amount : ℤ) : String :=
  let col := hex.data.drop 1
  let num : ℤ := match parseHexDigits col with | some n => (n : ℤ) | none => 0
  let r := clamp255 (jsShr num 16 + amount)
  let b := clamp255 (jsAnd (jsShr num 8) 255 + amount)
  let g := clamp255 (jsAnd num 255 + amount)
  String.mk ('#' :: jsToString16 (jsOr (jsOr g (jsShl b 8)) (jsShl r 16)))

/-- The amount fed to calc at iteration k of the do-while loop
(`ring ? amount-- : amount++` with `ring = amount > 0` fixed at entry). -/
def lightenStep (amount : ℤ) (k : ℕ) : ℤ :=
  if 0 < amount then amount - k else amount + k

/-- lighten.  The do-while loop recomputes calc with the stepped amount until
the produced string reaches length 7; the result is converted back to the
input's kind.  `ok none` models a loop that never stops.  The search bound is
sufficient: the exit test holds iff the clamped red byte is at least 16, so for
amount ≤ 0 (red grows by one per step) a stopping index is at most
|amount| + 16 when one exists, and for amount > 0 (red only shrinks) the loop
stops at k = 0 or never.  The alpha the source reads off an RGBA input is
never applied afterwards, so it is not modelled. -/
def lighten (v : ColorVal) (amount : ℤ) : Except ColorError (Option ColorVal) := do
  let type := jsToLower (colorType v)
  let hex ← toHEX v
  match (List.range (amount.natAbs + 32)).find?
      (fun k => 7 ≤ (lightenCalc hex (lightenStep amount k)).length) with
  | some k => do
      let res ← toColor (.str (lightenCalc hex (lightenStep amount k))) type 1
      return some res
  | none => return none

/-- darken: `lighten(color, -1 * Math.abs(amount))`. -/
def darken (v : ColorVal) (amount : ℤ) : Except ColorError (Option ColorVal) :=
  lighten v (-1 * |amount|)

/-- The option record of createColorScheme, taken already merged over
colorDefaultProps. -/
structure SchemeOpts where
  angle : ℚ
  algorithm : ℚ
  step : ℚ
  distance : ℚ
  tint1 : ℚ
  tint2 : ℚ
  shade1 : ℚ
  shade2 : ℚ
  alpha : ℚ
  deriving DecidableEq

/-- colorDefaultProps. -/
def colorDefaultProps : SchemeOpts :=
  { angle := 30, algorithm := 1, step := 0.1, distance := 5,
    tint1 := 0.8, tint2 := 0.4, shade1 := 0.6, shade2 := 0.3, alpha := 1 }

/-- The local clamp(num, min, max) of createColorScheme. -/
def clampQ (x lo hi : ℚ) : ℚ := max lo (min x hi)

/-- The local toRange(a, b, c) of createColorScheme. -/
def toRange (a b c : ℚ) : ℚ := if a < b then b else if a > c then c else a

/-- The local shift(h, s) of createColorScheme: add, then wrap into [0, 360)
by repeated ±360 steps; on rationals the loop computes exactly the value
below. -/
def shiftHue (h s : ℚ) : ℚ := (h + s) - 360 * ⌊(h + s) / 360⌋

/-- The three tint-toward-white channel updates of mono algorithm 1. -/
def tintRGB (x : RGB) (t : ℚ) : RGB :=
  ⟨toRange (jsRound (x.r + (255 - x.r) * t) : ℚ) 0 255,
   toRange (jsRound (x.g + (255 - x.g) * t) : ℚ) 0 255,
   toRange (jsRound (x.b + (255 - x.b) * t) : ℚ) 0 255⟩

/-- The three shade-toward-black channel updates of mono algorithm 1. -/
def shadeRGB (x : RGB) (t : ℚ) : RGB :=
  ⟨toRange (jsRound (x.r * t) : ℚ) 0 255,
   toRange (jsRound (x.g * t) : ℚ) 0 255,
   toRange (jsRound (x.b * t) : ℚ) 0 255⟩

/-- mono algorithm 2 loop: s and v stepped down and clamped each of the
`distance` iterations, pushing plain {h,s,v} objects. -/
def mono2Aux (h step : ℚ) : ℕ → ℚ → ℚ → List ColorVal
  | 0, _, _ => []
  | n + 1, s, v =>
      let v2 := clampQ (v - step) 0 1
      let s2 := clampQ (s - step) 0 1
      .pojo ⟨h, s2, v2⟩ :: mono2Aux h step n s2 v2

/-- mono algorithm 3 loop: only v stepped down. -/
def mono3Aux (h s step : ℚ) : ℕ → ℚ → List ColorVal
  | 0, _ => []
  | n + 1, v =>
      let v2 := clampQ (v - step) 0 1
      .pojo ⟨h, s, v2⟩ :: mono3Aux h s step n v2

/-- What createColorScheme returns: `failed` is its literal `return false`. -/
inductive SchemeResult where
  | failed
  | colors (cs : List ColorVal)
  deriving DecidableEq

/-- The local convert(source, format) of createColorScheme (format is matched
without case folding, as in the source). -/
def schemeConvert (source : List ColorVal) (format : String) (opt : SchemeOpts) :
    Except ColorError (List ColorVal) :=
  match format with
  | "hex" => source.mapM fun v => (toHEX v).map ColorVal.str
  | "rgb" => source.mapM fun v => (toRGB v).map ColorVal.rgb
  | "rgba" => source.mapM fun v => (toRGBA v (some opt.alpha)).map ColorVal.rgba
  | "hsl" => source.mapM fun v => (toHSL v).map ColorVal.hsl
  | "hsla" => source.mapM fun v => (toHSLA v (some opt.alpha)).map ColorVal.hsla
  | "cmyk" => source.mapM fun v => (toCMYK v).map ColorVal.cmyk
  | _ => .ok source

/-- createColorScheme.  Converts the input to HSV first (this is where an
invalid color makes toRGB raise), then guards `isHSV(hsv) === false` (a guard
that can never fire, rgb2hsv always returns an HSV instance), builds the
sample list for the scheme name (empty after a warning for an unknown name)
and converts it to the requested format.  The loop bound `distance` runs
`for (i = 1; i <= distance; i++)`, i.e. max(0, floor(distance)) iterations. -/
def createColorScheme (color : ColorVal) (name format : String) (opt : SchemeOpts) :
    Except ColorError SchemeResult := do
  let hsv ← toHSV color
  let h := hsv.h
  let s := hsv.s
  let v := hsv.v
  if isHSV (.hsv hsv) = false then
    return .failed
  else
    let scheme : List ColorVal :=
      match name with
      | "monochromatic" | "mono" =>
          if opt.algorithm = 1 then
            [.hsv (rgb2hsv (tintRGB (hsv2rgb hsv) opt.tint1)),
             .hsv (rgb2hsv (tintRGB (hsv2rgb hsv) opt.tint2)),
             .hsv hsv,
             .hsv (rgb2hsv (shadeRGB (hsv2rgb hsv) opt.shade1)),
             .hsv (rgb2hsv (shadeRGB (hsv2rgb hsv) opt.shade2))]
          else if opt.algorithm = 2 then
            .hsv hsv :: mono2Aux h opt.step (Int.toNat ⌊opt.distance⌋) s v
          else if opt.algorithm = 3 then
            .hsv hsv :: mono3Aux h s opt.step (Int.toNat ⌊opt.distance⌋) v
          else
            [.pojo ⟨h, s, clampQ (hsv.v + opt.step * 2) 0 1⟩,
             .pojo ⟨h, s, clampQ (hsv.v + opt.step) 0 1⟩,
             .hsv hsv,
             .pojo ⟨h, s, clampQ (hsv.v - opt.step) 0 1⟩,
             .pojo ⟨h, s, clampQ (hsv.v - opt.step * 2) 0 1⟩]
      | "complementary" | "complement" | "comp" =>
          [.hsv hsv, .hsv ⟨shiftHue hsv.h 180, s, v⟩]
      | "double-complementary" | "double-complement" | "double" =>
          let h1 := shiftHue h 180
          let h2 := shiftHue h1 opt.angle
          let h3 := shiftHue h2 180
          [.hsv hsv, .hsv ⟨h1, s, v⟩, .hsv ⟨h2, s, v⟩, .hsv ⟨h3, s, v⟩]
      | "analogous" | "analog" =>
          [.hsv ⟨shiftHue h opt.angle, s, v⟩, .hsv hsv,
           .hsv ⟨shiftHue hsv.h (0 - opt.angle), s, v⟩]
      | "triadic" | "triad" =>
          let h1 := shiftHue h 120
          let h2 := shiftHue h1 120
          [.hsv hsv, .hsv ⟨h1, s, v⟩, .hsv ⟨h2, s, v⟩]
      | "tetradic" | "tetra" =>
          let h1 := shiftHue hsv.h 180
          let h2 := shiftHue hsv.h (-1 * opt.angle)
          let h3 := shiftHue h2 180
          [.hsv hsv, .hsv ⟨h1, s, v⟩, .hsv ⟨h2, s, v⟩, .hsv ⟨h3, s, v⟩]
      | "square" =>
          let h1 := shiftHue h 90
          let h2 := shiftHue h1 90
          let h3 := shiftHue h2 90
          [.hsv hsv, .hsv ⟨h1, s, v⟩, .hsv ⟨h2, s, v⟩, .hsv ⟨h3, s, v⟩]
      | "split-complementary" | "split-complement" | "split" =>
          [.hsv ⟨shiftHue h (180 - opt.angle), s, v⟩, .hsv hsv,
           .hsv ⟨shiftHue hsv.h (180 + opt.angle), s, v⟩]
      | _ => []
    return .colors (← schemeConvert scheme format opt)

/-- A channel value that is an integer byte (what the data model documents for
RGB channels). -/
def IsByte (q : ℚ) : Prop := ∃ n : ℕ, n ≤ 255 ∧ q = (n : ℚ)

/-- The sixteen lower-case hex digit characters. -/
def lowHexChars : List Char :=
  ['a', 'b', 'c', 'd', 'e', 'f', '0', '1', '2', '3', '4', '5', '6', '7', '8', '9']

/-- The in-range colors of the data model (section 3 of the specification):
hex strings restricted to lower case, byte channels for RGB/RGBA, unit-interval
saturation and value/lightness with hue in [0, 360) for the HSx kinds, percent
channels for CMYK.  Plain objects and non-colors are never in range. -/
def InRange : ColorVal → Prop
  | .str s =>
      (match s.data with
       | c0 :: rest =>
           c0 = '#' ∧ (rest.length = 6 ∨ rest.length = 3) ∧ ∀ c ∈ rest, c ∈ lowHexChars
       | [] => False)
  | .rgb c => IsByte c.r ∧ IsByte c.g ∧ IsByte c.b
  | .rgba c => IsByte c.r ∧ IsByte c.g ∧ IsByte c.b
  | .hsv c => 0 ≤ c.h ∧ c.h < 360 ∧ 0 ≤ c.s ∧ c.s ≤ 1 ∧ 0 ≤ c.v ∧ c.v ≤ 1
  | .hsl c => 0 ≤ c.h ∧ c.h < 360 ∧ 0 ≤ c.s ∧ c.s ≤ 1 ∧ 0 ≤ c.l ∧ c.l ≤ 1
  | .hsla c => 0 ≤ c.h ∧ c.h < 360 ∧ 0 ≤ c.s ∧ c.s ≤ 1 ∧ 0 ≤ c.l ∧ c.l ≤ 1
  | .cmyk c =>
      0 ≤ c.c ∧ c.c ≤ 100 ∧ 0 ≤ c.m ∧ c.m ≤ 100 ∧ 0 ≤ c.y ∧ c.y ≤ 100 ∧
        0 ≤ c.k ∧ c.k ≤ 100
  | _ => False

/-- A bare (no `#`) string of exactly three characters: the inputs on which
expandHexColor fails to be idempotent. -/
def BareShort3 : ColorVal → Bool
  | .str s => s.data.length == 3 && s.data.head? != some '#'
  | _ => false

end ColorLib

namespace ColorLib

/-- Rounding an integer-valued rational returns it. -/
lemma jsRound_coe (n : ℕ) : ((jsRound (n : ℚ) : ℤ) : ℚ) = (n : ℚ) := by
  unfold jsRound
  have h : ⌊(n : ℚ) + 1 / 2⌋ = (n : ℤ) := by
    rw [Int.floor_eq_iff]
    constructor
    · push_cast; linarith
    · push_cast; linarith
  rw [h]
  norm_num

/-- The JS remainder by 60 of a nonnegative number, through its floor. -/
lemma jsMod_of_floor (x : ℚ) (i : ℤ) (hx : 0 ≤ x) (hf : ⌊x / 60⌋ = i) :
    jsMod x 60 = x - 60 * i := by
  unfold jsMod jsTrunc
  rw [if_pos (div_nonneg hx (by norm_num)), hf]

/-- hsv2rgb in the sector Hi = 0. -/
lemma hsv2rgb_sector0 (h s v : ℚ) (hf : ⌊h / 60⌋ = 0) :
    hsv2rgb ⟨h, s, v⟩ =
      ⟨(jsRound ((v * 100) * 255 / 100) : ℚ),
       (jsRound (((100 - s * 100) * (v * 100) / 100 + (v * 100 - (100 - s * 100) * (v * 100) / 100) * (jsMod h 60 / 60)) * 255 / 100) : ℚ),
       (jsRound (((100 - s * 100) * (v * 100) / 100) * 255 / 100) : ℚ)⟩ := by
  simp only [hsv2rgb, hf]
  norm_num

/-- hsv2rgb in the sector Hi = 1. -/
lemma hsv2rgb_sector1 (h s v : ℚ) (hf : ⌊h / 60⌋ = 1) :
    hsv2rgb ⟨h, s, v⟩ =
      ⟨(jsRound ((v * 100 - (v * 100 - (100 - s * 100) * (v * 100) / 100) * (jsMod h 60 / 60)) * 255 / 100) : ℚ),
       (jsRound ((v * 100) * 255 / 100) : ℚ),
       (jsRound (((100 - s * 100) * (v * 100) / 100) * 255 / 100) : ℚ)⟩ := by
  simp only [hsv2rgb, hf]
  norm_num

/-- hsv2rgb in the sector Hi = 2. -/
lemma hsv2rgb_sector2 (h s v : ℚ) (hf : ⌊h / 60⌋ = 2) :
    hsv2rgb ⟨h, s, v⟩ =
      ⟨(jsRound (((100 - s * 100) * (v * 100) / 100) * 255 / 100) : ℚ),
       (jsRound ((v * 100) * 255 / 100) : ℚ),
       (jsRound (((100 - s * 100) * (v * 100) / 100 + (v * 100 - (100 - s * 100) * (v * 100) / 100) * (jsMod h 60 / 60)) * 255 / 100) : ℚ)⟩ := by
  simp only [hsv2rgb, hf]
  norm_num

/-- hsv2rgb in the sector Hi = 3. -/
lemma hsv2rgb_sector3 (h s v : ℚ) (hf : ⌊h / 60⌋ = 3) :
    hsv2rgb ⟨h, s, v⟩ =
      ⟨(jsRound (((100 - s * 100) * (v * 100) / 100) * 255 / 100) : ℚ),
       (jsRound ((v * 100 - (v * 100 - (100 - s * 100) * (v * 100) / 100) * (jsMod h 60 / 60)) * 255 / 100) : ℚ),
       (jsRound ((v * 100) * 255 / 100) : ℚ)⟩ := by
  simp only [hsv2rgb, hf]
  norm_num

/-- hsv2rgb in the sector Hi = 4. -/
lemma hsv2rgb_sector4 (h s v : ℚ) (hf : ⌊h / 60⌋ = 4) :
    hsv2rgb ⟨h, s, v⟩ =
      ⟨(jsRound (((100 - s * 100) * (v * 100) / 100 + (v * 100 - (100 - s * 100) * (v * 100) / 100) * (jsMod h 60 / 60)) * 255 / 100) : ℚ),
       (jsRound (((100 - s * 100) * (v * 100) / 100) * 255 / 100) : ℚ),
       (jsRound ((v * 100) * 255 / 100) : ℚ)⟩ := by
  simp only [hsv2rgb, hf]
  norm_num

/-- hsv2rgb in the sector Hi = 5. -/
lemma hsv2rgb_sector5 (h s v : ℚ) (hf : ⌊h / 60⌋ = 5) :
    hsv2rgb ⟨h, s, v⟩ =
      ⟨(jsRound ((v * 100) * 255 / 100) : ℚ),
       (jsRound (((100 - s * 100) * (v * 100) / 100) * 255 / 100) : ℚ),
       (jsRound ((v * 100 - (v * 100 - (100 - s * 100) * (v * 100) / 100) * (jsMod h 60 / 60)) * 255 / 100) : ℚ)⟩ := by
  simp only [hsv2rgb, hf]
  norm_num

/-- rgb2hsv on an explicit record, written out. -/
lemma rgb2hsv_mk (r g b : ℚ) :
    rgb2hsv ⟨r, g, b⟩ =
      ⟨(if max (r / 255) (max (g / 255) (b / 255)) = min (r / 255) (min (g / 255) (b / 255)) then (0 : ℚ)
        else if max (r / 255) (max (g / 255) (b / 255)) = r / 255 ∧ b / 255 ≤ g / 255 then
          60 * ((g / 255 - b / 255) / (max (r / 255) (max (g / 255) (b / 255)) - min (r / 255) (min (g / 255) (b / 255))))
        else if max (r / 255) (max (g / 255) (b / 255)) = r / 255 ∧ g / 255 < b / 255 then
          60 * ((g / 255 - b / 255) / (max (r / 255) (max (g / 255) (b / 255)) - min (r / 255) (min (g / 255) (b / 255)))) + 360
        else if max (r / 255) (max (g / 255) (b / 255)) = g / 255 then
          60 * ((b / 255 - r / 255) / (max (r / 255) (max (g / 255) (b / 255)) - min (r / 255) (min (g / 255) (b / 255)))) + 120
        else if max (r / 255) (max (g / 255) (b / 255)) = b / 255 then
          60 * ((r / 255 - g / 255) / (max (r / 255) (max (g / 255) (b / 255)) - min (r / 255) (min (g / 255) (b / 255)))) + 240
        else 0),
       (if max (r / 255) (max (g / 255) (b / 255)) = 0 then 0 else 1 - min (r / 255) (min (g / 255) (b / 255)) / (max (r / 255) (max (g / 255) (b / 255)))),
       max (r / 255) (max (g / 255) (b / 255))⟩ := rfl

end ColorLib
namespace ColorLib

lemma jsRound_eq_cast {q : ℚ} {n : ℕ} (hq : q = n) : ((jsRound q : ℤ) : ℚ) = (n : ℚ) := by
  rw [hq]; exact jsRound_coe n

lemma roundtrip_L2 (R G B : ℕ) (hBG : B ≤ G) (hGR : G < R) :
    hsv2rgb (rgb2hsv ⟨(R : ℚ), (G : ℚ), (B : ℚ)⟩) = ⟨(R : ℚ), (G : ℚ), (B : ℚ)⟩ := by
  have hbg : (B : ℚ) / 255 ≤ (G : ℚ) / 255 := by
    have : (B : ℚ) ≤ (G : ℚ) := by exact_mod_cast hBG
    linarith
  have hgr : (G : ℚ) / 255 < (R : ℚ) / 255 := by
    have : (G : ℚ) < (R : ℚ) := by exact_mod_cast hGR
    linarith
  have hbr : (B : ℚ) / 255 < (R : ℚ) / 255 := lt_of_le_of_lt hbg hgr
  have hb0 : (0 : ℚ) ≤ (B : ℚ) / 255 := by positivity
  have hr0 : (0 : ℚ) < (R : ℚ) / 255 := lt_of_le_of_lt hb0 hbr
  have hMax : max ((R : ℚ) / 255) (max ((G : ℚ) / 255) ((B : ℚ) / 255)) = (R : ℚ) / 255 := by
    rw [max_eq_left hbg]
    exact max_eq_left hgr.le
  have hMin : min ((R : ℚ) / 255) (min ((G : ℚ) / 255) ((B : ℚ) / 255)) = (B : ℚ) / 255 := by
    rw [min_eq_right hbg]
    exact min_eq_right hbr.le
  have hx : rgb2hsv ⟨(R : ℚ), (G : ℚ), (B : ℚ)⟩ =
      ⟨60 * (((G : ℚ) / 255 - (B : ℚ) / 255) / ((R : ℚ) / 255 - (B : ℚ) / 255)),
       1 - ((B : ℚ) / 255) / ((R : ℚ) / 255), (R : ℚ) / 255⟩ := by
    rw [rgb2hsv_mk, hMax, hMin]
    rw [if_neg (Ne.symm (ne_of_lt hbr)), if_pos ⟨rfl, hbg⟩, if_neg (Ne.symm (ne_of_lt hr0))]
  have hq1 : 0 ≤ ((G : ℚ) / 255 - (B : ℚ) / 255) / ((R : ℚ) / 255 - (B : ℚ) / 255) :=
    div_nonneg (by linarith) (by linarith)
  have hq2 : ((G : ℚ) / 255 - (B : ℚ) / 255) / ((R : ℚ) / 255 - (B : ℚ) / 255) < 1 :=
    (div_lt_one (by linarith)).mpr (by linarith)
  have efl : (60 * (((G : ℚ) / 255 - (B : ℚ) / 255) / ((R : ℚ) / 255 - (B : ℚ) / 255))) / 60 =
      ((G : ℚ) / 255 - (B : ℚ) / 255) / ((R : ℚ) / 255 - (B : ℚ) / 255) := by ring
  have hfloor : ⌊(60 * (((G : ℚ) / 255 - (B : ℚ) / 255) / ((R : ℚ) / 255 - (B : ℚ) / 255))) / 60⌋ = 0 := by
    rw [efl, Int.floor_eq_iff] <;> norm_num
    exact ⟨hq1, hq2⟩
  have hmod : jsMod (60 * (((G : ℚ) / 255 - (B : ℚ) / 255) / ((R : ℚ) / 255 - (B : ℚ) / 255))) 60 =
      60 * (((G : ℚ) / 255 - (B : ℚ) / 255) / ((R : ℚ) / 255 - (B : ℚ) / 255)) - 60 * 0 :=
    jsMod_of_floor _ 0 (by positivity) hfloor
  rw [hx, hsv2rgb_sector0 _ _ _ hfloor, hmod]
  have hRne : (R : ℚ) ≠ 0 := by
    have : (0 : ℚ) < (R : ℚ) := by linarith
    exact Ne.symm (ne_of_lt this)
  have hRB : (R : ℚ) - (B : ℚ) ≠ 0 := by
    have : (B : ℚ) < (R : ℚ) := by linarith
    exact Ne.symm (ne_of_lt (by linarith))
  simp only [RGB.mk.injEq]
  refine ⟨jsRound_eq_cast ?_, jsRound_eq_cast ?_, jsRound_eq_cast ?_⟩
  · ring
  · field_simp
    ring
  · field_simp
    ring

end ColorLib

namespace ColorLib

/-- Round-trip, case G < B ≤ R (hue branch that adds 360, sector 5). -/
lemma roundtrip_L6 (R G B : ℕ) (hGB : G < B) (hBR : B ≤ R) :
    hsv2rgb (rgb2hsv ⟨(R : ℚ), (G : ℚ), (B : ℚ)⟩) = ⟨(R : ℚ), (G : ℚ), (B : ℚ)⟩ := by
  have hgb : (G : ℚ) / 255 < (B : ℚ) / 255 := by
    have : (G : ℚ) < (B : ℚ) := by exact_mod_cast hGB
    linarith
  have hbr : (B : ℚ) / 255 ≤ (R : ℚ) / 255 := by
    have : (B : ℚ) ≤ (R : ℚ) := by exact_mod_cast hBR
    linarith
  have hgr : (G : ℚ) / 255 < (R : ℚ) / 255 := lt_of_lt_of_le hgb hbr
  have hg0 : (0 : ℚ) ≤ (G : ℚ) / 255 := by positivity
  have hr0 : (0 : ℚ) < (R : ℚ) / 255 := lt_of_le_of_lt hg0 hgr
  have hMax : max ((R : ℚ) / 255) (max ((G : ℚ) / 255) ((B : ℚ) / 255)) = (R : ℚ) / 255 := by
    rw [max_eq_right hgb.le]
    exact max_eq_left hbr
  have hMin : min ((R : ℚ) / 255) (min ((G : ℚ) / 255) ((B : ℚ) / 255)) = (G : ℚ) / 255 := by
    rw [min_eq_left hgb.le]
    exact min_eq_right hgr.le
  have hx : rgb2hsv ⟨(R : ℚ), (G : ℚ), (B : ℚ)⟩ =
      ⟨60 * (((G : ℚ) / 255 - (B : ℚ) / 255) / ((R : ℚ) / 255 - (G : ℚ) / 255)) + 360, 1 - ((G : ℚ) / 255) / ((R : ℚ) / 255), (R : ℚ) / 255⟩ := by
    rw [rgb2hsv_mk, hMax, hMin]
    rw [if_neg (Ne.symm (ne_of_lt hgr))]
    rw [if_neg (by rintro ⟨-, h2⟩; exact absurd h2 (not_le.mpr hgb))]
    rw [if_pos ⟨rfl, hgb⟩]
    rw [if_neg (Ne.symm (ne_of_lt hr0))]
  have hu1 : -1 ≤ ((G : ℚ) / 255 - (B : ℚ) / 255) / ((R : ℚ) / 255 - (G : ℚ) / 255) :=
    (le_div_iff₀ (by linarith)).mpr (by linarith)
  have hu2 : ((G : ℚ) / 255 - (B : ℚ) / 255) / ((R : ℚ) / 255 - (G : ℚ) / 255) < 0 :=
    div_neg_of_neg_of_pos (by linarith) (by linarith)
  have efl : (60 * (((G : ℚ) / 255 - (B : ℚ) / 255) / ((R : ℚ) / 255 - (G : ℚ) / 255)) + 360) / 60 =
      ((G : ℚ) / 255 - (B : ℚ) / 255) / ((R : ℚ) / 255 - (G : ℚ) / 255) + 6 := by ring
  have hfloor : ⌊(60 * (((G : ℚ) / 255 - (B : ℚ) / 255) / ((R : ℚ) / 255 - (G : ℚ) / 255)) + 360) / 60⌋ = 5 := by
    rw [efl, Int.floor_eq_iff]
    constructor
    · push_cast
      linarith
    · push_cast
      linarith
  have hmod := jsMod_of_floor _ 5 (by linarith) hfloor
  rw [hx, hsv2rgb_sector5 _ _ _ hfloor, hmod]
  have hRne : (R : ℚ) ≠ 0 := by
    have : (0 : ℚ) < (R : ℚ) := by linarith
    exact Ne.symm (ne_of_lt this)
  have hRG : (R : ℚ) - (G : ℚ) ≠ 0 := by
    have : (G : ℚ) < (R : ℚ) := by linarith
    exact Ne.symm (ne_of_lt (by linarith))
  simp only [RGB.mk.injEq]
  refine ⟨jsRound_eq_cast ?_, jsRound_eq_cast ?_, jsRound_eq_cast ?_⟩
  · ring
  · field_simp
    ring
  · field_simp
    ring

end ColorLib

namespace ColorLib

/-- Round-trip, case G ≤ R < B (blue max, green min, sector 4). -/
lemma roundtrip_L7 (R G B : ℕ) (hGR : G ≤ R) (hRB : R < B) :
    hsv2rgb (rgb2hsv ⟨(R : ℚ), (G : ℚ), (B : ℚ)⟩) = ⟨(R : ℚ), (G : ℚ), (B : ℚ)⟩ := by
  have hgr : (G : ℚ) / 255 ≤ (R : ℚ) / 255 := by
    have : (G : ℚ) ≤ (R : ℚ) := by exact_mod_cast hGR
    linarith
  have hrb : (R : ℚ) / 255 < (B : ℚ) / 255 := by
    have : (R : ℚ) < (B : ℚ) := by exact_mod_cast hRB
    linarith
  have hgb : (G : ℚ) / 255 < (B : ℚ) / 255 := lt_of_le_of_lt hgr hrb
  have hg0 : (0 : ℚ) ≤ (G : ℚ) / 255 := by positivity
  have hb0 : (0 : ℚ) < (B : ℚ) / 255 := lt_of_le_of_lt hg0 hgb
  have hMax : max ((R : ℚ) / 255) (max ((G : ℚ) / 255) ((B : ℚ) / 255)) = (B : ℚ) / 255 := by
    rw [max_eq_right hgb.le]
    exact max_eq_right hrb.le
  have hMin : min ((R : ℚ) / 255) (min ((G : ℚ) / 255) ((B : ℚ) / 255)) = (G : ℚ) / 255 := by
    rw [min_eq_left hgb.le]
    exact min_eq_right hgr
  have hx : rgb2hsv ⟨(R : ℚ), (G : ℚ), (B : ℚ)⟩ =
      ⟨60 * (((R : ℚ) / 255 - (G : ℚ) / 255) / ((B : ℚ) / 255 - (G : ℚ) / 255)) + 240, 1 - ((G : ℚ) / 255) / ((B : ℚ) / 255), (B : ℚ) / 255⟩ := by
    rw [rgb2hsv_mk, hMax, hMin]
    rw [if_neg (Ne.symm (ne_of_lt hgb))]
    rw [if_neg (by rintro ⟨h1, -⟩; exact absurd h1 (Ne.symm (ne_of_lt hrb)))]
    rw [if_neg (by rintro ⟨h1, -⟩; exact absurd h1 (Ne.symm (ne_of_lt hrb)))]
    rw [if_neg (Ne.symm (ne_of_lt hgb))]
    rw [if_pos rfl]
    rw [if_neg (Ne.symm (ne_of_lt hb0))]
  have hu1 : 0 ≤ ((R : ℚ) / 255 - (G : ℚ) / 255) / ((B : ℚ) / 255 - (G : ℚ) / 255) :=
    div_nonneg (by linarith) (by linarith)
  have hu2 : ((R : ℚ) / 255 - (G : ℚ) / 255) / ((B : ℚ) / 255 - (G : ℚ) / 255) < 1 :=
    (div_lt_one (by linarith)).mpr (by linarith)
  have efl : (60 * (((R : ℚ) / 255 - (G : ℚ) / 255) / ((B : ℚ) / 255 - (G : ℚ) / 255)) + 240) / 60 =
      ((R : ℚ) / 255 - (G : ℚ) / 255) / ((B : ℚ) / 255 - (G : ℚ) / 255) + 4 := by ring
  have hfloor : ⌊(60 * (((R : ℚ) / 255 - (G : ℚ) / 255) / ((B : ℚ) / 255 - (G : ℚ) / 255)) + 240) / 60⌋ = 4 := by
    rw [efl, Int.floor_eq_iff]
    constructor
    · push_cast
      linarith
    · push_cast
      linarith
  have hmod := jsMod_of_floor _ 4 (by linarith) hfloor
  rw [hx, hsv2rgb_sector4 _ _ _ hfloor, hmod]
  have hBne : (B : ℚ) ≠ 0 := by
    have : (0 : ℚ) < (B : ℚ) := by linarith
    exact Ne.symm (ne_of_lt this)
  have hBG : (B : ℚ) - (G : ℚ) ≠ 0 := by
    have : (G : ℚ) < (B : ℚ) := by linarith
    exact Ne.symm (ne_of_lt (by linarith))
  simp only [RGB.mk.injEq]
  refine ⟨jsRound_eq_cast ?_, jsRound_eq_cast ?_, jsRound_eq_cast ?_⟩
  · field_simp
    ring
  · field_simp
    ring
  · ring


/-- Round-trip, case R < G < B (blue max, red min, sector 3). -/
lemma roundtrip_L8 (R G B : ℕ) (hRG : R < G) (hGB : G < B) :
    hsv2rgb (rgb2hsv ⟨(R : ℚ), (G : ℚ), (B : ℚ)⟩) = ⟨(R : ℚ), (G : ℚ), (B : ℚ)⟩ := by
  have hrg : (R : ℚ) / 255 < (G : ℚ) / 255 := by
    have : (R : ℚ) < (G : ℚ) := by exact_mod_cast hRG
    linarith
  have hgb : (G : ℚ) / 255 < (B : ℚ) / 255 := by
    have : (G : ℚ) < (B : ℚ) := by exact_mod_cast hGB
    linarith
  have hrb : (R : ℚ) / 255 < (B : ℚ) / 255 := lt_trans hrg hgb
  have hr0 : (0 : ℚ) ≤ (R : ℚ) / 255 := by positivity
  have hb0 : (0 : ℚ) < (B : ℚ) / 255 := lt_of_le_of_lt hr0 hrb
  have hMax : max ((R : ℚ) / 255) (max ((G : ℚ) / 255) ((B : ℚ) / 255)) = (B : ℚ) / 255 := by
    rw [max_eq_right hgb.le]
    exact max_eq_right hrb.le
  have hMin : min ((R : ℚ) / 255) (min ((G : ℚ) / 255) ((B : ℚ) / 255)) = (R : ℚ) / 255 := by
    rw [min_eq_left hgb.le]
    exact min_eq_left hrg.le
  have hx : rgb2hsv ⟨(R : ℚ), (G : ℚ), (B : ℚ)⟩ =
      ⟨60 * (((R : ℚ) / 255 - (G : ℚ) / 255) / ((B : ℚ) / 255 - (R : ℚ) / 255)) + 240, 1 - ((R : ℚ) / 255) / ((B : ℚ) / 255), (B : ℚ) / 255⟩ := by
    rw [rgb2hsv_mk, hMax, hMin]
    rw [if_neg (Ne.symm (ne_of_lt hrb))]
    rw [if_neg (by rintro ⟨h1, -⟩; exact absurd h1 (Ne.symm (ne_of_lt hrb)))]
    rw [if_neg (by rintro ⟨h1, -⟩; exact absurd h1 (Ne.symm (ne_of_lt hrb)))]
    rw [if_neg (Ne.symm (ne_of_lt hgb))]
    rw [if_pos rfl]
    rw [if_neg (Ne.symm (ne_of_lt hb0))]
  have hu1 : -1 < ((R : ℚ) / 255 - (G : ℚ) / 255) / ((B : ℚ) / 255 - (R : ℚ) / 255) := by
    rw [lt_div_iff₀ (by linarith)]
    linarith
  have hu2 : ((R : ℚ) / 255 - (G : ℚ) / 255) / ((B : ℚ) / 255 - (R : ℚ) / 255) < 0 :=
    div_neg_of_neg_of_pos (by linarith) (by linarith)
  have efl : (60 * (((R : ℚ) / 255 - (G : ℚ) / 255) / ((B : ℚ) / 255 - (R : ℚ) / 255)) + 240) / 60 =
      ((R : ℚ) / 255 - (G : ℚ) / 255) / ((B : ℚ) / 255 - (R : ℚ) / 255) + 4 := by ring
  have hfloor : ⌊(60 * (((R : ℚ) / 255 - (G : ℚ) / 255) / ((B : ℚ) / 255 - (R : ℚ) / 255)) + 240) / 60⌋ = 3 := by
    rw [efl, Int.floor_eq_iff]
    constructor
    · push_cast
      linarith
    · push_cast
      linarith
  have hmod := jsMod_of_floor _ 3 (by linarith) hfloor
  rw [hx, hsv2rgb_sector3 _ _ _ hfloor, hmod]
  have hBne : (B : ℚ) ≠ 0 := by
    have : (0 : ℚ) < (B : ℚ) := by linarith
    exact Ne.symm (ne_of_lt this)
  have hBR : (B : ℚ) - (R : ℚ) ≠ 0 := by
    have : (R : ℚ) < (B : ℚ) := by linarith
    exact Ne.symm (ne_of_lt (by linarith))
  simp only [RGB.mk.injEq]
  refine ⟨jsRound_eq_cast ?_, jsRound_eq_cast ?_, jsRound_eq_cast ?_⟩
  · field_simp
    ring
  · field_simp
    ring
  · ring


/-- Round-trip, case R ≤ B < G (green max, red min, sector 2). -/
lemma roundtrip_L4a (R G B : ℕ) (hRB : R ≤ B) (hBG : B < G) :
    hsv2rgb (rgb2hsv ⟨(R : ℚ), (G : ℚ), (B : ℚ)⟩) = ⟨(R : ℚ), (G : ℚ), (B : ℚ)⟩ := by
  have hrb : (R : ℚ) / 255 ≤ (B : ℚ) / 255 := by
    have : (R : ℚ) ≤ (B : ℚ) := by exact_mod_cast hRB
    linarith
  have hbg : (B : ℚ) / 255 < (G : ℚ) / 255 := by
    have : (B : ℚ) < (G : ℚ) := by exact_mod_cast hBG
    linarith
  have hrg : (R : ℚ) / 255 < (G : ℚ) / 255 := lt_of_le_of_lt hrb hbg
  have hr0 : (0 : ℚ) ≤ (R : ℚ) / 255 := by positivity
  have hg0 : (0 : ℚ) < (G : ℚ) / 255 := lt_of_le_of_lt hr0 hrg
  have hMax : max ((R : ℚ) / 255) (max ((G : ℚ) / 255) ((B : ℚ) / 255)) = (G : ℚ) / 255 := by
    rw [max_eq_left hbg.le]
    exact max_eq_right hrg.le
  have hMin : min ((R : ℚ) / 255) (min ((G : ℚ) / 255) ((B : ℚ) / 255)) = (R : ℚ) / 255 := by
    rw [min_eq_right hbg.le]
    exact min_eq_left hrb
  have hx : rgb2hsv ⟨(R : ℚ), (G : ℚ), (B : ℚ)⟩ =
      ⟨60 * (((B : ℚ) / 255 - (R : ℚ) / 255) / ((G : ℚ) / 255 - (R : ℚ) / 255)) + 120, 1 - ((R : ℚ) / 255) / ((G : ℚ) / 255), (G : ℚ) / 255⟩ := by
    rw [rgb2hsv_mk, hMax, hMin]
    rw [if_neg (Ne.symm (ne_of_lt hrg))]
    rw [if_neg (by rintro ⟨h1, -⟩; exact absurd h1 (Ne.symm (ne_of_lt hrg)))]
    rw [if_neg (by rintro ⟨h1, -⟩; exact absurd h1 (Ne.symm (ne_of_lt hrg)))]
    rw [if_pos rfl]
    rw [if_neg (Ne.symm (ne_of_lt hg0))]
  have hu1 : 0 ≤ ((B : ℚ) / 255 - (R : ℚ) / 255) / ((G : ℚ) / 255 - (R : ℚ) / 255) :=
    div_nonneg (by linarith) (by linarith)
  have hu2 : ((B : ℚ) / 255 - (R : ℚ) / 255) / ((G : ℚ) / 255 - (R : ℚ) / 255) < 1 :=
    (div_lt_one (by linarith)).mpr (by linarith)
  have efl : (60 * (((B : ℚ) / 255 - (R : ℚ) / 255) / ((G : ℚ) / 255 - (R : ℚ) / 255)) + 120) / 60 =
      ((B : ℚ) / 255 - (R : ℚ) / 255) / ((G : ℚ) / 255 - (R : ℚ) / 255) + 2 := by ring
  have hfloor : ⌊(60 * (((B : ℚ) / 255 - (R : ℚ) / 255) / ((G : ℚ) / 255 - (R : ℚ) / 255)) + 120) / 60⌋ = 2 := by
    rw [efl, Int.floor_eq_iff]
    constructor
    · push_cast
      linarith
    · push_cast
      linarith
  have hmod := jsMod_of_floor _ 2 (by linarith) hfloor
  rw [hx, hsv2rgb_sector2 _ _ _ hfloor, hmod]
  have hGne : (G : ℚ) ≠ 0 := by
    have : (0 : ℚ) < (G : ℚ) := by linarith
    exact Ne.symm (ne_of_lt this)
  have hGR : (G : ℚ) - (R : ℚ) ≠ 0 := by
    have : (R : ℚ) < (G : ℚ) := by linarith
    exact Ne.symm (ne_of_lt (by linarith))
  simp only [RGB.mk.injEq]
  refine ⟨jsRound_eq_cast ?_, jsRound_eq_cast ?_, jsRound_eq_cast ?_⟩
  · field_simp
    ring
  · ring
  · field_simp
    ring


/-- Round-trip, case B < R < G (green max, blue min, sector 1). -/
lemma roundtrip_L5 (R G B : ℕ) (hBR : B < R) (hRG : R < G) :
    hsv2rgb (rgb2hsv ⟨(R : ℚ), (G : ℚ), (B : ℚ)⟩) = ⟨(R : ℚ), (G : ℚ), (B : ℚ)⟩ := by
  have hbr : (B : ℚ) / 255 < (R : ℚ) / 255 := by
    have : (B : ℚ) < (R : ℚ) := by exact_mod_cast hBR
    linarith
  have hrg : (R : ℚ) / 255 < (G : ℚ) / 255 := by
    have : (R : ℚ) < (G : ℚ) := by exact_mod_cast hRG
    linarith
  have hbg : (B : ℚ) / 255 < (G : ℚ) / 255 := lt_trans hbr hrg
  have hb0 : (0 : ℚ) ≤ (B : ℚ) / 255 := by positivity
  have hg0 : (0 : ℚ) < (G : ℚ) / 255 := lt_of_le_of_lt hb0 hbg
  have hMax : max ((R : ℚ) / 255) (max ((G : ℚ) / 255) ((B : ℚ) / 255)) = (G : ℚ) / 255 := by
    rw [max_eq_left hbg.le]
    exact max_eq_right hrg.le
  have hMin : min ((R : ℚ) / 255) (min ((G : ℚ) / 255) ((B : ℚ) / 255)) = (B : ℚ) / 255 := by
    rw [min_eq_right hbg.le]
    exact min_eq_right hbr.le
  have hx : rgb2hsv ⟨(R : ℚ), (G : ℚ), (B : ℚ)⟩ =
      ⟨60 * (((B : ℚ) / 255 - (R : ℚ) / 255) / ((G : ℚ) / 255 - (B : ℚ) / 255)) + 120, 1 - ((B : ℚ) / 255) / ((G : ℚ) / 255), (G : ℚ) / 255⟩ := by
    rw [rgb2hsv_mk, hMax, hMin]
    rw [if_neg (Ne.symm (ne_of_lt hbg))]
    rw [if_neg (by rintro ⟨h1, -⟩; exact absurd h1 (Ne.symm (ne_of_lt hrg)))]
    rw [if_neg (by rintro ⟨h1, -⟩; exact absurd h1 (Ne.symm (ne_of_lt hrg)))]
    rw [if_pos rfl]
    rw [if_neg (Ne.symm (ne_of_lt hg0))]
  have hu1 : -1 < ((B : ℚ) / 255 - (R : ℚ) / 255) / ((G : ℚ) / 255 - (B : ℚ) / 255) := by
    rw [lt_div_iff₀ (by linarith)]
    linarith
  have hu2 : ((B : ℚ) / 255 - (R : ℚ) / 255) / ((G : ℚ) / 255 - (B : ℚ) / 255) < 0 :=
    div_neg_of_neg_of_pos (by linarith) (by linarith)
  have efl : (60 * (((B : ℚ) / 255 - (R : ℚ) / 255) / ((G : ℚ) / 255 - (B : ℚ) / 255)) + 120) / 60 =
      ((B : ℚ) / 255 - (R : ℚ) / 255) / ((G : ℚ) / 255 - (B : ℚ) / 255) + 2 := by ring
  have hfloor : ⌊(60 * (((B : ℚ) / 255 - (R : ℚ) / 255) / ((G : ℚ) / 255 - (B : ℚ) / 255)) + 120) / 60⌋ = 1 := by
    rw [efl, Int.floor_eq_iff]
    constructor
    · push_cast
      linarith
    · push_cast
      linarith
  have hmod := jsMod_of_floor _ 1 (by linarith) hfloor
  rw [hx, hsv2rgb_sector1 _ _ _ hfloor, hmod]
  have hGne : (G : ℚ) ≠ 0 := by
    have : (0 : ℚ) < (G : ℚ) := by linarith
    exact Ne.symm (ne_of_lt this)
  have hGB : (G : ℚ) - (B : ℚ) ≠ 0 := by
    have : (B : ℚ) < (G : ℚ) := by linarith
    exact Ne.symm (ne_of_lt (by linarith))
  simp only [RGB.mk.injEq]
  refine ⟨jsRound_eq_cast ?_, jsRound_eq_cast ?_, jsRound_eq_cast ?_⟩
  · field_simp
    ring
  · ring
  · field_simp
    ring

end ColorLib

namespace ColorLib

/-- Round-trip, case R = G = B (max equals min, hue 0, sector 0). -/
lemma roundtrip_L1 (R : ℕ) :
    hsv2rgb (rgb2hsv ⟨(R : ℚ), (R : ℚ), (R : ℚ)⟩) = ⟨(R : ℚ), (R : ℚ), (R : ℚ)⟩ := by
  by_cases hR0 : R = 0
  · subst hR0
    have hx : rgb2hsv ⟨((0 : ℕ) : ℚ), ((0 : ℕ) : ℚ), ((0 : ℕ) : ℚ)⟩ = ⟨0, 0, 0⟩ := by
      rw [rgb2hsv_mk]
      norm_num
    have hfloor : ⌊(0 : ℚ) / 60⌋ = 0 := by norm_num
    have hmod := jsMod_of_floor 0 0 le_rfl hfloor
    rw [hx, hsv2rgb_sector0 _ _ _ hfloor, hmod]
    simp only [RGB.mk.injEq]
    refine ⟨jsRound_eq_cast ?_, jsRound_eq_cast ?_, jsRound_eq_cast ?_⟩
    · norm_num
    · norm_num
    · norm_num
  · have hr0 : (0 : ℚ) < (R : ℚ) / 255 := by
      have h1 : (0 : ℚ) < (R : ℚ) := by
        exact_mod_cast Nat.pos_of_ne_zero hR0
      linarith
    have hMax : max ((R : ℚ) / 255) (max ((R : ℚ) / 255) ((R : ℚ) / 255)) = (R : ℚ) / 255 := by
      rw [max_self, max_self]
    have hMin : min ((R : ℚ) / 255) (min ((R : ℚ) / 255) ((R : ℚ) / 255)) = (R : ℚ) / 255 := by
      rw [min_self, min_self]
    have hx : rgb2hsv ⟨(R : ℚ), (R : ℚ), (R : ℚ)⟩ =
        ⟨0, 1 - ((R : ℚ) / 255) / ((R : ℚ) / 255), (R : ℚ) / 255⟩ := by
      rw [rgb2hsv_mk, hMax, hMin]
      rw [if_pos rfl]
      rw [if_neg (Ne.symm (ne_of_lt hr0))]
    have hfloor : ⌊(0 : ℚ) / 60⌋ = 0 := by norm_num
    have hmod := jsMod_of_floor 0 0 le_rfl hfloor
    rw [hx, hsv2rgb_sector0 _ _ _ hfloor, hmod]
    have hRne : (R : ℚ) ≠ 0 := Nat.cast_ne_zero.mpr hR0
    simp only [RGB.mk.injEq]
    refine ⟨jsRound_eq_cast ?_, jsRound_eq_cast ?_, jsRound_eq_cast ?_⟩
    · ring
    · field_simp
      ring
    · field_simp
      ring


/-- Round-trip, case B < R with green equal to red (hue exactly 60, sector 1). -/
lemma roundtrip_L3 (R B : ℕ) (hBR : B < R) :
    hsv2rgb (rgb2hsv ⟨(R : ℚ), (R : ℚ), (B : ℚ)⟩) = ⟨(R : ℚ), (R : ℚ), (B : ℚ)⟩ := by
  have hbr : (B : ℚ) / 255 < (R : ℚ) / 255 := by
    have : (B : ℚ) < (R : ℚ) := by exact_mod_cast hBR
    linarith
  have hb0 : (0 : ℚ) ≤ (B : ℚ) / 255 := by positivity
  have hr0 : (0 : ℚ) < (R : ℚ) / 255 := lt_of_le_of_lt hb0 hbr
  have hDne : (R : ℚ) / 255 - (B : ℚ) / 255 ≠ 0 := by
    have : (0 : ℚ) < (R : ℚ) / 255 - (B : ℚ) / 255 := by linarith
    exact Ne.symm (ne_of_lt this)
  have hMax : max ((R : ℚ) / 255) (max ((R : ℚ) / 255) ((B : ℚ) / 255)) = (R : ℚ) / 255 := by
    rw [max_eq_left hbr.le, max_self]
  have hMin : min ((R : ℚ) / 255) (min ((R : ℚ) / 255) ((B : ℚ) / 255)) = (B : ℚ) / 255 := by
    rw [min_eq_right hbr.le, min_eq_right hbr.le]
  have hHeq : 60 * (((R : ℚ) / 255 - (B : ℚ) / 255) / ((R : ℚ) / 255 - (B : ℚ) / 255)) = 60 := by
    rw [div_self hDne]
    norm_num
  have hx : rgb2hsv ⟨(R : ℚ), (R : ℚ), (B : ℚ)⟩ =
      ⟨60, 1 - ((B : ℚ) / 255) / ((R : ℚ) / 255), (R : ℚ) / 255⟩ := by
    rw [rgb2hsv_mk, hMax, hMin]
    rw [if_neg (Ne.symm (ne_of_lt hbr))]
    rw [if_pos ⟨rfl, hbr.le⟩]
    rw [if_neg (Ne.symm (ne_of_lt hr0))]
    rw [hHeq]
  have hfloor : ⌊(60 : ℚ) / 60⌋ = 1 := by norm_num
  have hmod := jsMod_of_floor 60 1 (by norm_num) hfloor
  rw [hx, hsv2rgb_sector1 _ _ _ hfloor, hmod]
  have hRne : (R : ℚ) ≠ 0 := by
    have : (0 : ℚ) < (R : ℚ) := by linarith
    exact Ne.symm (ne_of_lt this)
  simp only [RGB.mk.injEq]
  refine ⟨jsRound_eq_cast ?_, jsRound_eq_cast ?_, jsRound_eq_cast ?_⟩
  · field_simp
    try ring
  · ring
  · field_simp
    try ring


/-- Round-trip, case R < G with blue equal to green (hue exactly 180, sector 3). -/
lemma roundtrip_L4b (R G : ℕ) (hRG : R < G) :
    hsv2rgb (rgb2hsv ⟨(R : ℚ), (G : ℚ), (G : ℚ)⟩) = ⟨(R : ℚ), (G : ℚ), (G : ℚ)⟩ := by
  have hrg : (R : ℚ) / 255 < (G : ℚ) / 255 := by
    have : (R : ℚ) < (G : ℚ) := by exact_mod_cast hRG
    linarith
  have hr0 : (0 : ℚ) ≤ (R : ℚ) / 255 := by positivity
  have hg0 : (0 : ℚ) < (G : ℚ) / 255 := lt_of_le_of_lt hr0 hrg
  have hDne : (G : ℚ) / 255 - (R : ℚ) / 255 ≠ 0 := by
    have : (0 : ℚ) < (G : ℚ) / 255 - (R : ℚ) / 255 := by linarith
    exact Ne.symm (ne_of_lt this)
  have hMax : max ((R : ℚ) / 255) (max ((G : ℚ) / 255) ((G : ℚ) / 255)) = (G : ℚ) / 255 := by
    rw [max_self]
    exact max_eq_right hrg.le
  have hMin : min ((R : ℚ) / 255) (min ((G : ℚ) / 255) ((G : ℚ) / 255)) = (R : ℚ) / 255 := by
    rw [min_self]
    exact min_eq_left hrg.le
  have hHeq : 60 * (((G : ℚ) / 255 - (R : ℚ) / 255) / ((G : ℚ) / 255 - (R : ℚ) / 255)) + 120 = 180 := by
    rw [div_self hDne]
    norm_num
  have hx : rgb2hsv ⟨(R : ℚ), (G : ℚ), (G : ℚ)⟩ =
      ⟨180, 1 - ((R : ℚ) / 255) / ((G : ℚ) / 255), (G : ℚ) / 255⟩ := by
    rw [rgb2hsv_mk, hMax, hMin]
    rw [if_neg (Ne.symm (ne_of_lt hrg))]
    rw [if_neg (by rintro ⟨h1, -⟩; exact absurd h1 (Ne.symm (ne_of_lt hrg)))]
    rw [if_neg (by rintro ⟨h1, -⟩; exact absurd h1 (Ne.symm (ne_of_lt hrg)))]
    rw [if_pos rfl]
    rw [if_neg (Ne.symm (ne_of_lt hg0))]
    rw [hHeq]
  have hfloor : ⌊(180 : ℚ) / 60⌋ = 3 := by norm_num
  have hmod := jsMod_of_floor 180 3 (by norm_num) hfloor
  rw [hx, hsv2rgb_sector3 _ _ _ hfloor, hmod]
  have hGne : (G : ℚ) ≠ 0 := by
    have : (0 : ℚ) < (G : ℚ) := by linarith
    exact Ne.symm (ne_of_lt this)
  simp only [RGB.mk.injEq]
  refine ⟨jsRound_eq_cast ?_, jsRound_eq_cast ?_, jsRound_eq_cast ?_⟩
  · field_simp
    try ring
  · field_simp
    try ring
  · ring


/-- The exact round-trip: hsv2rgb inverts rgb2hsv on every byte triple. -/
lemma hsv2rgb_rgb2hsv (R G B : ℕ) :
    hsv2rgb (rgb2hsv ⟨(R : ℚ), (G : ℚ), (B : ℚ)⟩) = ⟨(R : ℚ), (G : ℚ), (B : ℚ)⟩ := by
  rcases Nat.lt_or_ge G B with hGB | hBG
  · rcases Nat.lt_or_ge R B with hRB | hBR
    · rcases Nat.lt_or_ge R G with hRG | hGR
      · exact roundtrip_L8 R G B hRG hGB
      · exact roundtrip_L7 R G B hGR hRB
    · exact roundtrip_L6 R G B hGB hBR
  · rcases Nat.lt_or_ge G R with hGR | hRG
    · exact roundtrip_L2 R G B hBG hGR
    · rcases Nat.eq_or_lt_of_le hRG with hEq | hRG2
      · rcases Nat.eq_or_lt_of_le hBG with hBG2 | hBG2
        · rw [hEq, hBG2]
          exact roundtrip_L1 G
        · rw [hEq]
          exact roundtrip_L3 G B (by omega)
      · rcases Nat.lt_or_ge B R with hBR | hRB
        · exact roundtrip_L5 R G B hBR hRG2
        · rcases Nat.eq_or_lt_of_le hBG with hBG2 | hBG2
          · rw [hBG2]
            exact roundtrip_L4b R G hRG2
          · exact roundtrip_L4a R G B hRB hBG2

end ColorLib

namespace ColorLib

/-- Rounding a nonnegative rational gives a nonnegative integer. -/
lemma jsRound_nonneg (q : ℚ) (h : 0 ≤ q) : 0 ≤ jsRound q := by
  unfold jsRound
  have h2 : (0 : ℚ) ≤ q + 1 / 2 := by linarith
  exact Int.floor_nonneg.mpr h2

/-- An integer cast to the rationals, when nonnegative, is a natural cast. -/
lemma int_cast_eq_natCast (z : ℤ) (h : 0 ≤ z) : ((z : ℚ)) = ((z.toNat : ℕ) : ℚ) := by
  exact_mod_cast (congrArg (fun t : ℤ => (t : ℚ)) (Int.toNat_of_nonneg h)).symm

/-- The JS remainder by 60 of a nonnegative number lies in [0, 60). -/
lemma jsMod60_bounds (x : ℚ) (hx : 0 ≤ x) : 0 ≤ jsMod x 60 ∧ jsMod x 60 < 60 := by
  unfold jsMod jsTrunc
  rw [if_pos (div_nonneg hx (by norm_num))]
  have h1 := Int.floor_le (x / 60)
  have h2 := Int.lt_floor_add_one (x / 60)
  constructor
  · nlinarith
  · nlinarith

/-- A triple of rounded nonnegative channels is a natural-number triple. -/
lemma rgb_round_nat (e1 e2 e3 : ℚ) (h1 : 0 ≤ e1) (h2 : 0 ≤ e2) (h3 : 0 ≤ e3) :
    ∃ N1 N2 N3 : ℕ,
      (RGB.mk ((jsRound (e1 * 255 / 100) : ℤ) : ℚ) ((jsRound (e2 * 255 / 100) : ℤ) : ℚ)
        ((jsRound (e3 * 255 / 100) : ℤ) : ℚ)) = ⟨(N1 : ℚ), (N2 : ℚ), (N3 : ℚ)⟩ := by
  have b1 : 0 ≤ jsRound (e1 * 255 / 100) :=
    jsRound_nonneg _ (div_nonneg (mul_nonneg h1 (by norm_num)) (by norm_num))
  have b2 : 0 ≤ jsRound (e2 * 255 / 100) :=
    jsRound_nonneg _ (div_nonneg (mul_nonneg h2 (by norm_num)) (by norm_num))
  have b3 : 0 ≤ jsRound (e3 * 255 / 100) :=
    jsRound_nonneg _ (div_nonneg (mul_nonneg h3 (by norm_num)) (by norm_num))
  refine ⟨(jsRound (e1 * 255 / 100)).toNat, (jsRound (e2 * 255 / 100)).toNat,
    (jsRound (e3 * 255 / 100)).toNat, ?_⟩
  rw [RGB.mk.injEq]
  exact ⟨int_cast_eq_natCast _ b1, int_cast_eq_natCast _ b2, int_cast_eq_natCast _ b3⟩

/-- hsv2rgb when the sector index falls outside 0..5 (the JS switch assigns
nothing; the model's fall-through). -/
lemma hsv2rgb_default (h s v : ℚ) (i0 : ⌊h / 60⌋ ≠ 0) (i1 : ⌊h / 60⌋ ≠ 1)
    (i2 : ⌊h / 60⌋ ≠ 2) (i3 : ⌊h / 60⌋ ≠ 3) (i4 : ⌊h / 60⌋ ≠ 4)
    (i5 : ⌊h / 60⌋ ≠ 5) :
    hsv2rgb ⟨h, s, v⟩ = ⟨0, 0, 0⟩ := by
  have hz : ((jsRound ((0 : ℚ) * 255 / 100) : ℤ) : ℚ) = 0 := by
    have e : (0 : ℚ) * 255 / 100 = 0 := by ring
    rw [e]
    unfold jsRound
    have h0 : ⌊(0 : ℚ) + 1 / 2⌋ = 0 := by
      rw [Int.floor_eq_iff]
      constructor
      · norm_num
      · norm_num
    rw [h0]
    norm_num
  simp only [hsv2rgb, if_neg i0, if_neg i1, if_neg i2, if_neg i3, if_neg i4, if_neg i5]
  rw [RGB.mk.injEq]
  exact ⟨hz, hz, hz⟩

/-- hsv2rgb produces natural-number channels whenever saturation lies in [0,1]
and value is nonnegative. -/
lemma hsv2rgb_nat (x : HSV) (hs0 : 0 ≤ x.s) (hs1 : x.s ≤ 1) (hv0 : 0 ≤ x.v) :
    ∃ N1 N2 N3 : ℕ, hsv2rgb x = ⟨(N1 : ℚ), (N2 : ℚ), (N3 : ℚ)⟩ := by
  obtain ⟨h, s, v⟩ := x
  dsimp only at hs0 hs1 hv0
  have hVp : 0 ≤ v * 100 := by linarith
  have hVmin0 : 0 ≤ (100 - s * 100) * (v * 100) / 100 := by
    have ha : 0 ≤ 100 - s * 100 := by linarith
    exact div_nonneg (mul_nonneg ha hVp) (by norm_num)
  have hVminle : (100 - s * 100) * (v * 100) / 100 ≤ v * 100 := by nlinarith
  have key : ∀ i : ℤ, ⌊h / 60⌋ = i → 0 ≤ (i : ℚ) →
      (0 ≤ (v * 100 - (100 - s * 100) * (v * 100) / 100) * (jsMod h 60 / 60) ∧
        (v * 100 - (100 - s * 100) * (v * 100) / 100) * (jsMod h 60 / 60) ≤
          v * 100 - (100 - s * 100) * (v * 100) / 100) := by
    intro i hi hi0
    have hh0 : 0 ≤ h := by
      have ha := Int.floor_le (h / 60)
      rw [hi] at ha
      nlinarith
    obtain ⟨hm0, hm1⟩ := jsMod60_bounds h hh0
    constructor
    · exact mul_nonneg (by linarith) (div_nonneg hm0 (by norm_num))
    · nlinarith
  by_cases i0 : ⌊h / 60⌋ = 0
  · obtain ⟨hA0, hA1⟩ := key 0 i0 (by norm_num)
    rw [hsv2rgb_sector0 h s v i0]
    exact rgb_round_nat _ _ _ (by linarith) (by linarith) (by linarith)
  by_cases i1 : ⌊h / 60⌋ = 1
  · obtain ⟨hA0, hA1⟩ := key 1 i1 (by norm_num)
    rw [hsv2rgb_sector1 h s v i1]
    exact rgb_round_nat _ _ _ (by linarith) (by linarith) (by linarith)
  by_cases i2 : ⌊h / 60⌋ = 2
  · obtain ⟨hA0, hA1⟩ := key 2 i2 (by norm_num)
    rw [hsv2rgb_sector2 h s v i2]
    exact rgb_round_nat _ _ _ (by linarith) (by linarith) (by linarith)
  by_cases i3 : ⌊h / 60⌋ = 3
  · obtain ⟨hA0, hA1⟩ := key 3 i3 (by norm_num)
    rw [hsv2rgb_sector3 h s v i3]
    exact rgb_round_nat _ _ _ (by linarith) (by linarith) (by linarith)
  by_cases i4 : ⌊h / 60⌋ = 4
  · obtain ⟨hA0, hA1⟩ := key 4 i4 (by norm_num)
    rw [hsv2rgb_sector4 h s v i4]
    exact rgb_round_nat _ _ _ (by linarith) (by linarith) (by linarith)
  by_cases i5 : ⌊h / 60⌋ = 5
  · obtain ⟨hA0, hA1⟩ := key 5 i5 (by norm_num)
    rw [hsv2rgb_sector5 h s v i5]
    exact rgb_round_nat _ _ _ (by linarith) (by linarith) (by linarith)
  · rw [hsv2rgb_default h s v i0 i1 i2 i3 i4 i5]
    exact ⟨0, 0, 0, by norm_num⟩

/-- cmyk2rgb produces natural-number channels on in-range CMYK input. -/
lemma cmyk2rgb_nat (x : CMYK) (hc : 0 ≤ x.c) (hc1 : x.c ≤ 100) (hm : 0 ≤ x.m)
    (hm1 : x.m ≤ 100) (hy : 0 ≤ x.y) (hy1 : x.y ≤ 100) (hk : 0 ≤ x.k)
    (hk1 : x.k ≤ 100) :
    ∃ N1 N2 N3 : ℕ, cmyk2rgb x = ⟨(N1 : ℚ), (N2 : ℚ), (N3 : ℚ)⟩ := by
  have h1 : 0 ≤ 255 * (1 - x.c / 100) * (1 - x.k / 100) := by
    have a1 : 0 ≤ 1 - x.c / 100 := by linarith
    have a2 : 0 ≤ 1 - x.k / 100 := by linarith
    positivity
  have h2 : 0 ≤ 255 * (1 - x.m / 100) * (1 - x.k / 100) := by
    have a1 : 0 ≤ 1 - x.m / 100 := by linarith
    have a2 : 0 ≤ 1 - x.k / 100 := by linarith
    positivity
  have h3 : 0 ≤ 255 * (1 - x.y / 100) * (1 - x.k / 100) := by
    have a1 : 0 ≤ 1 - x.y / 100 := by linarith
    have a2 : 0 ≤ 1 - x.k / 100 := by linarith
    positivity
  refine ⟨(⌊255 * (1 - x.c / 100) * (1 - x.k / 100)⌋).toNat,
    (⌈255 * (1 - x.m / 100) * (1 - x.k / 100)⌉).toNat,
    (⌈255 * (1 - x.y / 100) * (1 - x.k / 100)⌉).toNat, ?_⟩
  unfold cmyk2rgb
  rw [RGB.mk.injEq]
  refine ⟨?_, ?_, ?_⟩
  · exact int_cast_eq_natCast _ (Int.floor_nonneg.mpr h1)
  · exact int_cast_eq_natCast _ (Int.ceil_nonneg (by linarith))
  · exact int_cast_eq_natCast _ (Int.ceil_nonneg (by linarith))

/-- hsl2hsv keeps saturation in [0,1] and value nonnegative on in-range HSL. -/
lemma hsl2hsv_range (x : HSL) (hs0 : 0 ≤ x.s) (hs1 : x.s ≤ 1) (hl0 : 0 ≤ x.l)
    (hl1 : x.l ≤ 1) :
    0 ≤ (hsl2hsv x).s ∧ (hsl2hsv x).s ≤ 1 ∧ 0 ≤ (hsl2hsv x).v := by
  obtain ⟨h, s, l⟩ := x
  dsimp only at hs0 hs1 hl0 hl1
  have hd0 : 0 ≤ (if l * 2 ≤ 1 then l * 2 else 2 - l * 2) := by
    split_ifs with hcase
    · linarith
    · linarith
  have hs20 : 0 ≤ s * (if l * 2 ≤ 1 then l * 2 else 2 - l * 2) := mul_nonneg hs0 hd0
  have hsle : s * (if l * 2 ≤ 1 then l * 2 else 2 - l * 2) ≤ l * 2 := by
    by_cases hcase : l * 2 ≤ 1
    · rw [if_pos hcase]
      nlinarith
    · rw [if_neg hcase]
      nlinarith
  have hsum0 : 0 ≤ l * 2 + s * (if l * 2 ≤ 1 then l * 2 else 2 - l * 2) := by linarith
  simp only [hsl2hsv]
  refine ⟨?_, ?_, ?_⟩
  · by_cases hz : l * 2 + s * (if l * 2 ≤ 1 then l * 2 else 2 - l * 2) = 0
    · rw [if_pos hz]
    · rw [if_neg hz]
      have hpos : 0 < l * 2 + s * (if l * 2 ≤ 1 then l * 2 else 2 - l * 2) :=
        lt_of_le_of_ne hsum0 (Ne.symm hz)
      exact div_nonneg (by linarith) hpos.le
  · by_cases hz : l * 2 + s * (if l * 2 ≤ 1 then l * 2 else 2 - l * 2) = 0
    · rw [if_pos hz]
      norm_num
    · rw [if_neg hz]
      have hpos : 0 < l * 2 + s * (if l * 2 ≤ 1 then l * 2 else 2 - l * 2) :=
        lt_of_le_of_ne hsum0 (Ne.symm hz)
      rw [div_le_one hpos]
      nlinarith
  · linarith

end ColorLib

namespace ColorLib

/-- toBase16Go does not depend on the fuel once it exceeds the argument. -/
lemma toBase16Go_fuel (n : ℕ) : ∀ f1 f2, n < f1 → n < f2 →
    toBase16Go f1 n = toBase16Go f2 n := by
  induction n using Nat.strong_induction_on with
  | _ n ih =>
    intro f1 f2 h1 h2
    rcases f1 with _ | f1
    · omega
    rcases f2 with _ | f2
    · omega
    simp only [toBase16Go]
    by_cases h16 : n < 16
    · rw [if_pos h16, if_pos h16]
    · rw [if_neg h16, if_neg h16]
      have hd : n / 16 < n := Nat.div_lt_self (by omega) (by omega)
      rw [ih (n / 16) hd f1 f2 (by omega) (by omega)]

/-- One unfolding of toBase16 below 16. -/
lemma toBase16_small (n : ℕ) (h : n < 16) : toBase16 n = [natToHexDigit n] := by
  unfold toBase16
  rw [show toBase16Go (n + 1) n =
    if n < 16 then [natToHexDigit n]
    else toBase16Go n (n / 16) ++ [natToHexDigit (n % 16)] from rfl]
  rw [if_pos h]

/-- One unfolding of toBase16 at or above 16. -/
lemma toBase16_rec_big (n : ℕ) (h : 16 ≤ n) :
    toBase16 n = toBase16 (n / 16) ++ [natToHexDigit (n % 16)] := by
  unfold toBase16
  rw [show toBase16Go (n + 1) n =
    if n < 16 then [natToHexDigit n]
    else toBase16Go n (n / 16) ++ [natToHexDigit (n % 16)] from rfl]
  rw [if_neg (by omega)]
  have hd : n / 16 < n := Nat.div_lt_self (by omega) (by omega)
  rw [toBase16Go_fuel (n / 16) n (n / 16 + 1) hd (by omega)]

/-- The seven hex digits of a packed 2^24 + rgb value. -/
lemma toBase16_hex6 (d1 d2 d3 d4 d5 d6 : ℕ) (h1 : d1 < 16) (h2 : d2 < 16)
    (h3 : d3 < 16) (h4 : d4 < 16) (h5 : d5 < 16) (h6 : d6 < 16) :
    toBase16 (16777216 + (d1 * 16 + d2) * 65536 + (d3 * 16 + d4) * 256 + (d5 * 16 + d6)) =
      ['1', natToHexDigit d1, natToHexDigit d2, natToHexDigit d3, natToHexDigit d4,
        natToHexDigit d5, natToHexDigit d6] := by
  rw [toBase16_rec_big _ (by omega)]
  rw [show (16777216 + (d1 * 16 + d2) * 65536 + (d3 * 16 + d4) * 256 + (d5 * 16 + d6)) % 16 =
    d6 from by omega]
  rw [show (16777216 + (d1 * 16 + d2) * 65536 + (d3 * 16 + d4) * 256 + (d5 * 16 + d6)) / 16 =
    1048576 + (d1 * 16 + d2) * 4096 + (d3 * 16 + d4) * 16 + d5 from by omega]
  rw [toBase16_rec_big _ (by omega)]
  rw [show (1048576 + (d1 * 16 + d2) * 4096 + (d3 * 16 + d4) * 16 + d5) % 16 = d5 from by omega]
  rw [show (1048576 + (d1 * 16 + d2) * 4096 + (d3 * 16 + d4) * 16 + d5) / 16 =
    65536 + (d1 * 16 + d2) * 256 + (d3 * 16 + d4) from by omega]
  rw [toBase16_rec_big _ (by omega)]
  rw [show (65536 + (d1 * 16 + d2) * 256 + (d3 * 16 + d4)) % 16 = d4 from by omega]
  rw [show (65536 + (d1 * 16 + d2) * 256 + (d3 * 16 + d4)) / 16 =
    4096 + (d1 * 16 + d2) * 16 + d3 from by omega]
  rw [toBase16_rec_big _ (by omega)]
  rw [show (4096 + (d1 * 16 + d2) * 16 + d3) % 16 = d3 from by omega]
  rw [show (4096 + (d1 * 16 + d2) * 16 + d3) / 16 = 256 + (d1 * 16 + d2) from by omega]
  rw [toBase16_rec_big _ (by omega)]
  rw [show (256 + (d1 * 16 + d2)) % 16 = d2 from by omega]
  rw [show (256 + (d1 * 16 + d2)) / 16 = 16 + d1 from by omega]
  rw [toBase16_rec_big _ (by omega)]
  rw [show (16 + d1) % 16 = d1 from by omega]
  rw [show (16 + d1) / 16 = 1 from by omega]
  rw [toBase16_small 1 (by omega)]
  rfl

/-- The JS left shift on a small natural number is plain multiplication. -/
lemma jsShl_small (n k : ℕ) (h : n * 2 ^ k < 2147483648) :
    jsShl (n : ℤ) k = ((n * 2 ^ k : ℕ) : ℤ) := by
  have hk1 : (1 : ℕ) ≤ 2 ^ k := Nat.one_le_two_pow
  have hn : n < 4294967296 := by nlinarith
  unfold jsShl toUInt32 ofUInt32
  rw [Int.emod_eq_of_lt (by positivity) (by exact_mod_cast hn)]
  rw [Int.toNat_natCast]
  rw [Nat.mod_eq_of_lt (by omega)]
  rw [if_pos h]

/-- jsTrunc of a natural cast. -/
lemma jsTrunc_natCast (n : ℕ) : jsTrunc ((n : ℕ) : ℚ) = (n : ℤ) := by
  unfold jsTrunc
  rw [if_pos (by positivity)]
  exact_mod_cast Int.floor_natCast n

/-- rgb2hex renders a byte triple given by hex digit pairs as `#` plus the six
lowercase digits. -/
lemma rgb2hex_digits (d1 d2 d3 d4 d5 d6 : ℕ) (h1 : d1 < 16) (h2 : d2 < 16)
    (h3 : d3 < 16) (h4 : d4 < 16) (h5 : d5 < 16) (h6 : d6 < 16) :
    rgb2hex ⟨((d1 * 16 + d2 : ℕ) : ℚ), ((d3 * 16 + d4 : ℕ) : ℚ), ((d5 * 16 + d6 : ℕ) : ℚ)⟩ =
      String.mk ['#', natToHexDigit d1, natToHexDigit d2, natToHexDigit d3,
        natToHexDigit d4, natToHexDigit d5, natToHexDigit d6] := by
  unfold rgb2hex jsNumToString16
  rw [jsTrunc_natCast, jsTrunc_natCast]
  rw [jsShl_small _ 16 (by nlinarith), jsShl_small _ 8 (by nlinarith)]
  rw [show (16777216 : ℚ) + (((d1 * 16 + d2) * 2 ^ 16 : ℕ) : ℤ) +
      (((d3 * 16 + d4) * 2 ^ 8 : ℕ) : ℤ) + ((d5 * 16 + d6 : ℕ) : ℚ) =
      ((16777216 + (d1 * 16 + d2) * 65536 + (d3 * 16 + d4) * 256 + (d5 * 16 + d6) : ℕ) : ℚ)
    from by push_cast; ring]
  rw [jsTrunc_natCast]
  unfold jsToString16
  rw [if_neg (not_lt.mpr (by positivity))]
  rw [Int.toNat_natCast]
  rw [toBase16_hex6 d1 d2 d3 d4 d5 d6 h1 h2 h3 h4 h5 h6]
  rfl

/-- A lowercase hex digit character round-trips through its value. -/
lemma natToHexDigit_val (c : Char) (h : c ∈ lowHexChars) :
    natToHexDigit (hexDigitVal c) = c := by
  fin_cases h <;> rfl

/-- Lowercase hex digit characters have values below 16. -/
lemma hexDigitVal_lt16 (c : Char) (h : c ∈ lowHexChars) : hexDigitVal c < 16 := by
  fin_cases h <;> decide

/-- Lowercase hex digit characters pass the regex character class. -/
lemma isHexDigit_of_low (c : Char) (h : c ∈ lowHexChars) : isHexDigit c = true := by
  fin_cases h <;> decide

/-- rgb2hex inverts the pairwise hex parse on lowercase digits. -/
lemma rgb2hex_pairs (c1 c2 c3 c4 c5 c6 : Char) (h1 : c1 ∈ lowHexChars)
    (h2 : c2 ∈ lowHexChars) (h3 : c3 ∈ lowHexChars) (h4 : c4 ∈ lowHexChars)
    (h5 : c5 ∈ lowHexChars) (h6 : c6 ∈ lowHexChars) :
    rgb2hex ⟨hexPairVal c1 c2, hexPairVal c3 c4, hexPairVal c5 c6⟩ =
      String.mk ['#', c1, c2, c3, c4, c5, c6] := by
  unfold hexPairVal
  rw [show hexDigitVal c1 * 16 + hexDigitVal c2 = hexDigitVal c1 * 16 + hexDigitVal c2
    from rfl]
  rw [rgb2hex_digits _ _ _ _ _ _ (hexDigitVal_lt16 _ h1) (hexDigitVal_lt16 _ h2)
    (hexDigitVal_lt16 _ h3) (hexDigitVal_lt16 _ h4) (hexDigitVal_lt16 _ h5)
    (hexDigitVal_lt16 _ h6)]
  rw [natToHexDigit_val _ h1, natToHexDigit_val _ h2, natToHexDigit_val _ h3,
    natToHexDigit_val _ h4, natToHexDigit_val _ h5, natToHexDigit_val _ h6]

end ColorLib

namespace ColorLib

/-- equal is true as soon as both sides are valid colors with the same
HEX-normal form. -/
lemma equal_of_toHEX (c1 c2 : ColorVal) (h1 : isColor c1 = true)
    (h2 : isColor c2 = true) (h : toHEX c1 = toHEX c2) : equal c1 c2 = true := by
  unfold equal
  rw [h1, h2, h]
  simp

/-- A seven-character lowercase hex string passes the isHEX regex. -/
lemma isHEXstr7 (c1 c2 c3 c4 c5 c6 : Char) (h1 : c1 ∈ lowHexChars)
    (h2 : c2 ∈ lowHexChars) (h3 : c3 ∈ lowHexChars) (h4 : c4 ∈ lowHexChars)
    (h5 : c5 ∈ lowHexChars) (h6 : c6 ∈ lowHexChars) :
    isHEXstr (String.mk ['#', c1, c2, c3, c4, c5, c6]) = true := by
  have hall : [c1, c2, c3, c4, c5, c6].all isHexDigit = true := by
    simp only [List.all_cons, List.all_nil, Bool.and_true]
    rw [isHexDigit_of_low c1 h1, isHexDigit_of_low c2 h2, isHexDigit_of_low c3 h3,
      isHexDigit_of_low c4 h4, isHexDigit_of_low c5 h5, isHexDigit_of_low c6 h6]
    rfl
  show (decide (('#' : Char) = '#') && [c1, c2, c3, c4, c5, c6].all isHexDigit) = true
  rw [hall]
  rfl

/-- A four-character lowercase hex string passes the isHEX regex. -/
lemma isHEXstr4 (c1 c2 c3 : Char) (h1 : c1 ∈ lowHexChars)
    (h2 : c2 ∈ lowHexChars) (h3 : c3 ∈ lowHexChars) :
    isHEXstr (String.mk ['#', c1, c2, c3]) = true := by
  have hall : [c1, c2, c3].all isHexDigit = true := by
    simp only [List.all_cons, List.all_nil, Bool.and_true]
    rw [isHexDigit_of_low c1 h1, isHexDigit_of_low c2 h2, isHexDigit_of_low c3 h3]
    rfl
  show (decide (('#' : Char) = '#') && [c1, c2, c3].all isHexDigit) = true
  rw [hall]
  rfl

/-- expandHexData leaves a seven-character list alone. -/
lemma expandHexData7 (c1 c2 c3 c4 c5 c6 : Char) :
    expandHexData ['#', c1, c2, c3, c4, c5, c6] = ['#', c1, c2, c3, c4, c5, c6] := rfl

/-- expandHexData doubles the digits of a shorthand hex list. -/
lemma expandHexData4 (c1 c2 c3 : Char) (h1 : c1 ∈ lowHexChars)
    (h2 : c2 ∈ lowHexChars) (h3 : c3 ∈ lowHexChars) :
    expandHexData ['#', c1, c2, c3] = ['#', c1, c1, c2, c2, c3, c3] := by
  have hall : (isHexDigit c1 && isHexDigit c2 && isHexDigit c3) = true := by
    rw [isHexDigit_of_low c1 h1, isHexDigit_of_low c2 h2, isHexDigit_of_low c3 h3]
    rfl
  show (if ('#' : Char) = '#' then
      if (isHexDigit c1 && isHexDigit c2 && isHexDigit c3) = true then
        ['#', c1, c1, c2, c2, c3, c3]
      else ['#', '#', c1, c2, c3]
    else ['#', '#', c1, c2, c3]) = ['#', c1, c1, c2, c2, c3, c3]
  rw [if_pos rfl, if_pos hall]

/-- hex2rgb parses an (already expanded) lowercase six-digit hex string into
its three byte pairs. -/
lemma hex2rgb_pairs6 (c1 c2 c3 c4 c5 c6 : Char) (h1 : c1 ∈ lowHexChars)
    (h2 : c2 ∈ lowHexChars) (h3 : c3 ∈ lowHexChars) (h4 : c4 ∈ lowHexChars)
    (h5 : c5 ∈ lowHexChars) (h6 : c6 ∈ lowHexChars) :
    hex2rgb (String.mk ['#', c1, c2, c3, c4, c5, c6]) =
      .ok ⟨hexPairVal c1 c2, hexPairVal c3 c4, hexPairVal c5 c6⟩ := by
  have hall : [c1, c2, c3, c4, c5, c6].all isHexDigit = true := by
    simp only [List.all_cons, List.all_nil, Bool.and_true]
    rw [isHexDigit_of_low c1 h1, isHexDigit_of_low c2 h2, isHexDigit_of_low c3 h3,
      isHexDigit_of_low c4 h4, isHexDigit_of_low c5 h5, isHexDigit_of_low c6 h6]
    rfl
  show (if (decide (('#' : Char) = '#') && [c1, c2, c3, c4, c5, c6].all isHexDigit) = true then
      (Except.ok ⟨hexPairVal c1 c2, hexPairVal c3 c4, hexPairVal c5 c6⟩ : Except ColorError RGB)
    else Except.error ColorError.typeError) =
    Except.ok ⟨hexPairVal c1 c2, hexPairVal c3 c4, hexPairVal c5 c6⟩
  rw [hall]
  rfl

/-- hex2rgb parses a lowercase shorthand hex string by doubling each digit. -/
lemma hex2rgb_pairs3 (c1 c2 c3 : Char) (h1 : c1 ∈ lowHexChars)
    (h2 : c2 ∈ lowHexChars) (h3 : c3 ∈ lowHexChars) :
    hex2rgb (String.mk ['#', c1, c2, c3]) =
      .ok ⟨hexPairVal c1 c1, hexPairVal c2 c2, hexPairVal c3 c3⟩ := by
  have hall : [c1, c1, c2, c2, c3, c3].all isHexDigit = true := by
    simp only [List.all_cons, List.all_nil, Bool.and_true]
    rw [isHexDigit_of_low c1 h1, isHexDigit_of_low c2 h2, isHexDigit_of_low c3 h3]
    rfl
  unfold hex2rgb
  rw [expandHexData4 c1 c2 c3 h1 h2 h3]
  show (if (decide (('#' : Char) = '#') && [c1, c1, c2, c2, c3, c3].all isHexDigit) = true then
      (Except.ok ⟨hexPairVal c1 c1, hexPairVal c2 c2, hexPairVal c3 c3⟩ : Except ColorError RGB)
    else Except.error ColorError.typeError) =
    Except.ok ⟨hexPairVal c1 c1, hexPairVal c2 c2, hexPairVal c3 c3⟩
  rw [hall]
  rfl

/-- The common step of the conversion-invariance argument: once toRGB lands on
a byte triple whose hex rendering is the input's HEX-normal form, both the
toRGB image and the toHSV image compare equal to the input. -/
lemma equal_conv_aux (v : ColorVal) (N1 N2 N3 : ℕ) (hc : isColor v = true)
    (hr : toRGB v = .ok ⟨(N1 : ℚ), (N2 : ℚ), (N3 : ℚ)⟩)
    (hx : toHEX v = .ok (rgb2hex ⟨(N1 : ℚ), (N2 : ℚ), (N3 : ℚ)⟩)) :
    ∃ r x, toRGB v = .ok r ∧ toHSV v = .ok x ∧
      equal v (.rgb r) = true ∧ equal v (.hsv x) = true := by
  refine ⟨⟨(N1 : ℚ), (N2 : ℚ), (N3 : ℚ)⟩, rgb2hsv ⟨(N1 : ℚ), (N2 : ℚ), (N3 : ℚ)⟩,
    hr, ?_, ?_, ?_⟩
  · unfold toHSV
    rw [hr]
    rfl
  · exact equal_of_toHEX _ _ hc rfl (by rw [hx]; rfl)
  · refine equal_of_toHEX _ _ hc rfl ?_
    rw [hx]
    show _ = Except.ok (rgb2hex (hsv2rgb (rgb2hsv ⟨(N1 : ℚ), (N2 : ℚ), (N3 : ℚ)⟩)))
    rw [hsv2rgb_rgb2hsv]

/-- C2 (amended): on every in-range color — lowercase hex strings, byte RGB and
RGBA channels, in-range HSV/HSL/HSLA and CMYK records — toRGB and toHSV succeed
and their results are `equal` to the input, i.e. those conversions do not change
the 6-digit-hex normal form.  (The original claim fails for uppercase hex
strings and for toCMYK; see the counterexample.) -/
theorem C2_equal_toRGB_toHSV (v : ColorVal) (hin : InRange v) :
    ∃ r x, toRGB v = .ok r ∧ toHSV v = .ok x ∧
      equal v (.rgb r) = true ∧ equal v (.hsv x) = true := by
  cases v with
  | str s =>
    obtain ⟨data⟩ := s
    cases data with
    | nil => exact hin.elim
    | cons c0 rest =>
      obtain ⟨hc0, hlen, hmem⟩ := hin
      subst hc0
      rcases hlen with hl6 | hl3
      · rcases rest with _ | ⟨c1, _ | ⟨c2, _ | ⟨c3, _ | ⟨c4, _ | ⟨c5, _ | ⟨c6, _ | ⟨c7, t⟩⟩⟩⟩⟩⟩⟩
        · simp only [List.length_nil] at hl6
          omega
        · simp only [List.length_cons, List.length_nil] at hl6
          omega
        · simp only [List.length_cons, List.length_nil] at hl6
          omega
        · simp only [List.length_cons, List.length_nil] at hl6
          omega
        · simp only [List.length_cons, List.length_nil] at hl6
          omega
        · simp only [List.length_cons, List.length_nil] at hl6
          omega
        · have h1 : c1 ∈ lowHexChars := hmem c1 (by simp)
          have h2 : c2 ∈ lowHexChars := hmem c2 (by simp)
          have h3 : c3 ∈ lowHexChars := hmem c3 (by simp)
          have h4 : c4 ∈ lowHexChars := hmem c4 (by simp)
          have h5 : c5 ∈ lowHexChars := hmem c5 (by simp)
          have h6 : c6 ∈ lowHexChars := hmem c6 (by simp)
          have hhex := isHEXstr7 c1 c2 c3 c4 c5 c6 h1 h2 h3 h4 h5 h6
          have hc : isColor (.str (String.mk ['#', c1, c2, c3, c4, c5, c6])) = true := by
            simp only [isColor, isHEX]
            rw [hhex]
            rfl
          have hrgb : toRGB (.str (String.mk ['#', c1, c2, c3, c4, c5, c6])) =
              .ok ⟨hexPairVal c1 c2, hexPairVal c3 c4, hexPairVal c5 c6⟩ := by
            show (if isHEXstr (String.mk ['#', c1, c2, c3, c4, c5, c6]) = true then
                hex2rgb (String.mk ['#', c1, c2, c3, c4, c5, c6])
              else Except.error ColorError.unknownFormat) = _
            rw [if_pos hhex, hex2rgb_pairs6 c1 c2 c3 c4 c5 c6 h1 h2 h3 h4 h5 h6]
          have hx : toHEX (.str (String.mk ['#', c1, c2, c3, c4, c5, c6])) =
              .ok (rgb2hex ⟨hexPairVal c1 c2, hexPairVal c3 c4, hexPairVal c5 c6⟩) := by
            rw [rgb2hex_pairs c1 c2 c3 c4 c5 c6 h1 h2 h3 h4 h5 h6]
            rfl
          exact equal_conv_aux _ (hexDigitVal c1 * 16 + hexDigitVal c2)
            (hexDigitVal c3 * 16 + hexDigitVal c4)
            (hexDigitVal c5 * 16 + hexDigitVal c6) hc hrgb hx
        · simp only [List.length_cons, List.length_nil] at hl6
          omega
      · rcases rest with _ | ⟨c1, _ | ⟨c2, _ | ⟨c3, _ | ⟨c4, t⟩⟩⟩⟩
        · simp only [List.length_nil] at hl3
          omega
        · simp only [List.length_cons, List.length_nil] at hl3
          omega
        · simp only [List.length_cons, List.length_nil] at hl3
          omega
        · have h1 : c1 ∈ lowHexChars := hmem c1 (by simp)
          have h2 : c2 ∈ lowHexChars := hmem c2 (by simp)
          have h3 : c3 ∈ lowHexChars := hmem c3 (by simp)
          have hhex := isHEXstr4 c1 c2 c3 h1 h2 h3
          have hc : isColor (.str (String.mk ['#', c1, c2, c3])) = true := by
            simp only [isColor, isHEX]
            rw [hhex]
            rfl
          have hrgb : toRGB (.str (String.mk ['#', c1, c2, c3])) =
              .ok ⟨hexPairVal c1 c1, hexPairVal c2 c2, hexPairVal c3 c3⟩ := by
            show (if isHEXstr (String.mk ['#', c1, c2, c3]) = true then
                hex2rgb (String.mk ['#', c1, c2, c3])
              else Except.error ColorError.unknownFormat) = _
            rw [if_pos hhex, hex2rgb_pairs3 c1 c2 c3 h1 h2 h3]
          have hx : toHEX (.str (String.mk ['#', c1, c2, c3])) =
              .ok (rgb2hex ⟨hexPairVal c1 c1, hexPairVal c2 c2, hexPairVal c3 c3⟩) := by
            rw [rgb2hex_pairs c1 c1 c2 c2 c3 c3 h1 h1 h2 h2 h3 h3]
            show Except.ok (expandHexString (String.mk ['#', c1, c2, c3])) = _
            unfold expandHexString
            rw [expandHexData4 c1 c2 c3 h1 h2 h3]
          exact equal_conv_aux _ (hexDigitVal c1 * 16 + hexDigitVal c1)
            (hexDigitVal c2 * 16 + hexDigitVal c2)
            (hexDigitVal c3 * 16 + hexDigitVal c3) hc hrgb hx
        · simp only [List.length_cons, List.length_nil] at hl3
          omega
  | rgb c =>
    obtain ⟨cr, cg, cb⟩ := c
    obtain ⟨⟨n1, _, e1⟩, ⟨n2, _, e2⟩, ⟨n3, _, e3⟩⟩ := hin
    dsimp only at e1 e2 e3
    subst e1 e2 e3
    exact equal_conv_aux _ n1 n2 n3 rfl rfl rfl
  | rgba c =>
    obtain ⟨cr, cg, cb, ca⟩ := c
    obtain ⟨⟨n1, _, e1⟩, ⟨n2, _, e2⟩, ⟨n3, _, e3⟩⟩ := hin
    dsimp only at e1 e2 e3
    subst e1 e2 e3
    exact equal_conv_aux _ n1 n2 n3 rfl rfl rfl
  | hsv c =>
    obtain ⟨_, _, hs0, hs1, hv0, _⟩ := hin
    obtain ⟨N1, N2, N3, hN⟩ := hsv2rgb_nat c hs0 hs1 hv0
    refine equal_conv_aux _ N1 N2 N3 rfl ?_ ?_
    · show Except.ok (hsv2rgb c) = _
      rw [hN]
    · show Except.ok (rgb2hex (hsv2rgb c)) = _
      rw [hN]
  | hsl c =>
    obtain ⟨_, _, hs0, hs1, hl0, hl1⟩ := hin
    obtain ⟨q1, q2, q3⟩ := hsl2hsv_range c hs0 hs1 hl0 hl1
    obtain ⟨N1, N2, N3, hN⟩ := hsv2rgb_nat (hsl2hsv c) q1 q2 q3
    refine equal_conv_aux _ N1 N2 N3 rfl ?_ ?_
    · show Except.ok (hsv2rgb (hsl2hsv c)) = _
      rw [hN]
    · show Except.ok (rgb2hex (hsv2rgb (hsl2hsv c))) = _
      rw [hN]
  | hsla c =>
    obtain ⟨_, _, hs0, hs1, hl0, hl1⟩ := hin
    obtain ⟨q1, q2, q3⟩ := hsl2hsv_range ⟨c.h, c.s, c.l⟩ hs0 hs1 hl0 hl1
    obtain ⟨N1, N2, N3, hN⟩ := hsv2rgb_nat (hsl2hsv ⟨c.h, c.s, c.l⟩) q1 q2 q3
    refine equal_conv_aux _ N1 N2 N3 rfl ?_ ?_
    · show Except.ok (hsv2rgb (hsl2hsv ⟨c.h, c.s, c.l⟩)) = _
      rw [hN]
    · show Except.ok (rgb2hex (hsv2rgb (hsl2hsv ⟨c.h, c.s, c.l⟩))) = _
      rw [hN]
  | cmyk c =>
    obtain ⟨hc0, hc1, hm0, hm1, hy0, hy1, hk0, hk1⟩ := hin
    obtain ⟨N1, N2, N3, hN⟩ := cmyk2rgb_nat c hc0 hc1 hm0 hm1 hy0 hy1 hk0 hk1
    refine equal_conv_aux _ N1 N2 N3 rfl ?_ ?_
    · show Except.ok (cmyk2rgb c) = _
      rw [hN]
    · show Except.ok (rgb2hex (cmyk2rgb c)) = _
      rw [hN]
  | pojo p => exact hin.elim
  | other => exact hin.elim

/-- C2 witness: the in-range color rgb(64, 128, 3) is preserved by toRGB and
toHSV up to `equal`. -/
theorem C2_witness :
    InRange (.rgb ⟨64, 128, 3⟩) ∧
      (∃ r x, toRGB (.rgb ⟨64, 128, 3⟩) = .ok r ∧ toHSV (.rgb ⟨64, 128, 3⟩) = .ok x ∧
        equal (.rgb ⟨64, 128, 3⟩) (.rgb r) = true ∧
        equal (.rgb ⟨64, 128, 3⟩) (.hsv x) = true) := by
  have hin : InRange (ColorVal.rgb ⟨64, 128, 3⟩) :=
    ⟨⟨64, by norm_num, by norm_num⟩, ⟨128, by norm_num, by norm_num⟩,
      ⟨3, by norm_num, by norm_num⟩⟩
  exact ⟨hin, C2_equal_toRGB_toHSV _ hin⟩

/-- C2 counterexample: equal(c, toRGB(c)) fails for the valid uppercase hex
color "#FF0000" (the string keeps its case while the converted record renders
lowercase), and equal(c, toCMYK(c)) fails for rgb(1, 2, 3) (the CMYK round trip
is lossy). -/
theorem C2_counterexample :
    isColor (.str "#FF0000") = true ∧
      toRGB (.str "#FF0000") = .ok ⟨255, 0, 0⟩ ∧
      equal (.str "#FF0000") (.rgb ⟨255, 0, 0⟩) = false ∧
      isColor (.rgb ⟨1, 2, 3⟩) = true ∧
      toCMYK (.rgb ⟨1, 2, 3⟩) = .ok ⟨67, 33, 0, 99⟩ ∧
      equal (.rgb ⟨1, 2, 3⟩) (.cmyk ⟨67, 33, 0, 99⟩) = false := by
  with_unfolding_all decide

end ColorLib

namespace ColorLib

/-- Helper: a string passing the isHEX test parses to an RGB record. -/
lemma hex2rgb_ok_of_isHEXstr (s : String) (h : isHEXstr s = true) :
    ∃ c, hex2rgb s = .ok c := by
  unfold isHEXstr at h
  split at h
  next c0 c1 c2 c3 c4 c5 c6 heq =>
    simp only [Bool.and_eq_true, decide_eq_true_eq] at h
    obtain ⟨rfl, hall⟩ := h
    have hred : hex2rgb s =
        if ([c1, c2, c3, c4, c5, c6].all isHexDigit) = true then
          (Except.ok ⟨hexPairVal c1 c2, hexPairVal c3 c4, hexPairVal c5 c6⟩ :
            Except ColorError RGB)
        else .error .typeError := by
      unfold hex2rgb
      rw [heq]
      rfl
    exact ⟨_, by rw [hred, if_pos hall]⟩
  next c0 c1 c2 c3 heq =>
    simp only [Bool.and_eq_true, decide_eq_true_eq] at h
    obtain ⟨rfl, hall⟩ := h
    simp only [List.all_cons, List.all_nil, Bool.and_true, Bool.and_eq_true] at hall
    have hx : (isHexDigit c1 && isHexDigit c2 && isHexDigit c3) = true := by
      simp [hall.1, hall.2.1, hall.2.2]
    have hexp : expandHexData s.data = ['#', c1, c1, c2, c2, c3, c3] := by
      rw [heq]
      simp only [expandHexData, if_pos rfl, hx, if_true]
    have hred : hex2rgb s =
        if ([c1, c1, c2, c2, c3, c3].all isHexDigit) = true then
          (Except.ok ⟨hexPairVal c1 c1, hexPairVal c2 c2, hexPairVal c3 c3⟩ :
            Except ColorError RGB)
        else .error .typeError := by
      unfold hex2rgb
      rw [hexp]
      rfl
    exact ⟨_, by rw [hred, if_pos (by simp [hall.1, hall.2.1, hall.2.2])]⟩
  next => exact absurd h (by simp)

/-- Helper: toRGB succeeds exactly on the values isColor accepts, and raises
the unknown-format error exactly on the rest. -/
lemma toRGB_isColor (v : ColorVal) :
    (isColor v = true → ∃ c, toRGB v = .ok c) ∧
    (isColor v = false → toRGB v = .error .unknownFormat) := by
  cases v with
  | str s =>
      constructor
      · intro h
        have hx : isHEXstr s = true := by
          simpa [isColor, isHEX, isRGB, isRGBA, isHSV, isHSL, isHSLA, isCMYK] using h
        simpa [toRGB, hx] using hex2rgb_ok_of_isHEXstr s hx
      · intro h
        have hx : isHEXstr s = false := by
          simpa [isColor, isHEX, isRGB, isRGBA, isHSV, isHSL, isHSLA, isCMYK] using h
        simp [toRGB, hx]
  | rgb c => exact ⟨fun _ => ⟨_, rfl⟩, fun h => by simp [isColor, isRGB] at h⟩
  | rgba c => exact ⟨fun _ => ⟨_, rfl⟩, fun h => by simp [isColor, isRGBA] at h⟩
  | hsv c => exact ⟨fun _ => ⟨_, rfl⟩, fun h => by simp [isColor, isHSV] at h⟩
  | hsl c => exact ⟨fun _ => ⟨_, rfl⟩, fun h => by simp [isColor, isHSL] at h⟩
  | hsla c => exact ⟨fun _ => ⟨_, rfl⟩, fun h => by simp [isColor, isHSLA] at h⟩
  | cmyk c => exact ⟨fun _ => ⟨_, rfl⟩, fun h => by simp [isColor, isCMYK] at h⟩
  | pojo c =>
      exact ⟨fun h => by
        simp [isColor, isHEX, isRGB, isRGBA, isHSV, isHSL, isHSLA, isCMYK] at h,
        fun _ => rfl⟩
  | other =>
      exact ⟨fun h => by
        simp [isColor, isHEX, isRGB, isRGBA, isHSV, isHSL, isHSLA, isCMYK] at h,
        fun _ => rfl⟩

/-- Helper: expandHexData is idempotent away from bare length-3 inputs. -/
lemma expandHexData_idem (l : List Char)
    (h : ¬(l.length = 3 ∧ l.head? ≠ some '#')) :
    expandHexData (expandHexData l) = expandHexData l := by
  rcases l with _ | ⟨c0, _ | ⟨c1, _ | ⟨c2, _ | ⟨c3, _ | ⟨c4, rest2⟩⟩⟩⟩⟩
  · rfl
  · by_cases h0 : c0 = '#'
    · subst h0; rfl
    · have h1 : expandHexData [c0] = ['#', c0] := by simp [expandHexData, h0]
      rw [h1]; rfl
  · by_cases h0 : c0 = '#'
    · subst h0; rfl
    · have h1 : expandHexData [c0, c1] = ['#', c0, c1] := by simp [expandHexData, h0]
      rw [h1]; rfl
  · have h0 : c0 = '#' := by
      by_contra h0
      exact h ⟨rfl, by simp [h0]⟩
    subst h0; rfl
  · by_cases h0 : c0 = '#'
    · subst h0
      by_cases hx : (isHexDigit c1 && isHexDigit c2 && isHexDigit c3) = true
      · have h1 : expandHexData ['#', c1, c2, c3] = ['#', c1, c1, c2, c2, c3, c3] := by
          simp [expandHexData, hx]
        rw [h1]; rfl
      · have h1 : expandHexData ['#', c1, c2, c3] = ['#', '#', c1, c2, c3] := by
          simp [expandHexData, hx]
        rw [h1]; rfl
    · have h1 : expandHexData [c0, c1, c2, c3] = ['#', c0, c1, c2, c3] := by
        simp [expandHexData, h0]
      rw [h1]; rfl
  · by_cases h0 : c0 = '#'
    · subst h0
      have h1 : expandHexData ('#' :: c1 :: c2 :: c3 :: c4 :: rest2) =
          '#' :: c1 :: c2 :: c3 :: c4 :: rest2 := by
        simp [expandHexData]
      rw [h1, h1]
    · have h1 : expandHexData (c0 :: c1 :: c2 :: c3 :: c4 :: rest2) =
          '#' :: c0 :: c1 :: c2 :: c3 :: c4 :: rest2 := by
        simp [expandHexData, h0]
      rw [h1]
      simp [expandHexData]

/-! ## Claim theorems -/

/-- C1: toRGB accepts a value of any of the seven color kinds and returns an
RGB record, and it raises the UnknownFormat error if and only if the value
matches none of them, equivalently iff isColor is false for it. -/
theorem C1_toRGB_total_unless_unknownFormat (v : ColorVal) :
    (isColor v = true → ∃ c, toRGB v = .ok c) ∧
    (isColor v = false → toRGB v = .error .unknownFormat) :=
  toRGB_isColor v

/-- C1 witness: a hex string converts, a non-color raises UnknownFormat. -/
theorem C1_witness :
    (∃ c, toRGB (.str "#0a33ff") = .ok c) ∧
    toRGB .other = .error .unknownFormat :=
  ⟨(C1_toRGB_total_unless_unknownFormat (.str "#0a33ff")).1 (by decide),
   (C1_toRGB_total_unless_unknownFormat .other).2 (by decide)⟩

/-- C4, failing input: on a non-color argument createColorScheme raises the
UnknownFormat error from the toHSV call (whose toRGB throws) before the
isHSV soft-failure guard can run; it does not return the soft false. -/
theorem C4_createColorScheme_raises :
    createColorScheme (.str "brick") "monochromatic" "hex" colorDefaultProps =
      .error .unknownFormat := by decide

/-- C5, counterexample: for a negative amount, darken is not lighten with the
sign inverted; darken(c, -5) re-darkens (it equals lighten(c, -5)), while the
claim demands lighten(c, 5). -/
theorem C5_counterexample :
    darken (.str "#808080") (-5) = .ok (some (.str "#7b7b7b")) ∧
    lighten (.str "#808080") 5 = .ok (some (.str "#858585")) ∧
    darken (.str "#808080") (-5) ≠ lighten (.str "#808080") 5 :=
  ⟨by decide, by decide, by decide⟩

/-- C5, amended: darken(c, n) = lighten(c, -n) holds for every color value and
every nonnegative amount n; for negative n, darken(c, n) = lighten(c, -|n|) =
lighten(c, n) instead. -/
theorem C5_darken_eq_lighten_neg (v : ColorVal) (n : ℤ) (h : 0 ≤ n) :
    darken v n = lighten v (-n) := by
  unfold darken
  rw [abs_of_nonneg h, neg_one_mul]

/-- C5 witness. -/
theorem C5_witness :
    darken (.str "#808080") 5 = lighten (.str "#808080") (-5) :=
  C5_darken_eq_lighten_neg (.str "#808080") 5 (by decide)

/-- C7, counterexample: expanding the bare string "03f" yields "#03f", and
expanding again yields "#0033ff", so expandHex is not idempotent on it. -/
theorem C7_counterexample :
    expandHexColor (.str "03f") = .ok (.str "#03f") ∧
    expandHexColor (.str "#03f") = .ok (.str "#0033ff") ∧
    ColorVal.str "#03f" ≠ ColorVal.str "#0033ff" :=
  ⟨by decide, by decide, by decide⟩

/-- C7, amended: expandHex is idempotent on every input on which it succeeds,
except bare (no `#`) strings of exactly three characters, whose expansion is a
4-character shorthand that expands again. -/
theorem C7_expandHex_idem (v w : ColorVal) (hok : expandHexColor v = .ok w)
    (hb : BareShort3 v = false) : expandHexColor w = .ok w := by
  cases v with
  | str s =>
      have hw : w = .str (expandHexString s) := by
        have := hok
        simp only [expandHexColor, Except.ok.injEq] at this
        exact this.symm
      subst hw
      have hb2 : ¬(s.data.length = 3 ∧ s.data.head? ≠ some '#') := by
        rintro ⟨h3, hh⟩
        simp [BareShort3, h3, hh] at hb
      have hidem : expandHexData (expandHexData s.data) = expandHexData s.data :=
        expandHexData_idem s.data hb2
      simp only [expandHexColor, expandHexString, Except.ok.injEq, ColorVal.str.injEq]
      exact congrArg String.mk hidem
  | rgb c =>
      have h2 : (Except.ok (ColorVal.rgb c) : Except ColorError ColorVal) = .ok w := hok
      injection h2 with h3
      rw [← h3]; rfl
  | rgba c =>
      have h2 : (Except.ok (ColorVal.rgba c) : Except ColorError ColorVal) = .ok w := hok
      injection h2 with h3
      rw [← h3]; rfl
  | hsv c =>
      have h2 : (Except.ok (ColorVal.hsv c) : Except ColorError ColorVal) = .ok w := hok
      injection h2 with h3
      rw [← h3]; rfl
  | hsl c =>
      have h2 : (Except.ok (ColorVal.hsl c) : Except ColorError ColorVal) = .ok w := hok
      injection h2 with h3
      rw [← h3]; rfl
  | hsla c =>
      have h2 : (Except.ok (ColorVal.hsla c) : Except ColorError ColorVal) = .ok w := hok
      injection h2 with h3
      rw [← h3]; rfl
  | cmyk c =>
      have h2 : (Except.ok (ColorVal.cmyk c) : Except ColorError ColorVal) = .ok w := hok
      injection h2 with h3
      rw [← h3]; rfl
  | pojo c =>
      exact Except.noConfusion
        (show (Except.error ColorError.invalidInput : Except ColorError ColorVal) = .ok w from hok)
  | other =>
      exact Except.noConfusion
        (show (Except.error ColorError.invalidInput : Except ColorError ColorVal) = .ok w from hok)

/-- C7 witness. -/
theorem C7_witness : expandHexColor (.str "#aabbcc") = .ok (.str "#aabbcc") :=
  C7_expandHex_idem (.str "#aabbcc") (.str "#aabbcc") (by decide) rfl

/-- C8, counterexample: toRGBA with no alpha argument on an alpha-free color
produces alpha 0 (the RGBA constructor default), not the claimed 1. -/
theorem C8_counterexample :
    isColor (.str "#000000") = true ∧
    toRGBA (.str "#000000") none = .ok ⟨0, 0, 0, 0⟩ ∧
    (RGBA.mk 0 0 0 0).a ≠ 1 :=
  ⟨by decide, by decide, by decide⟩

/-- C8, amended: on a non-RGBA non-HSLA color, toHSLA with no alpha argument
yields alpha 1 (its parameter default), but toRGBA with no alpha argument
yields alpha 0, because its alpha parameter has no default and the RGBA
constructor fills in 0. -/
theorem C8_default_alpha (v : ColorVal) (r : RGB)
    (h1 : isRGBA v = false) (h2 : isHSLA v = false) (h : toRGB v = .ok r) :
    toRGBA v none = .ok ⟨r.r, r.g, r.b, 0⟩ ∧
    toHSLA v none =
      .ok ⟨(hsv2hsl (rgb2hsv r)).h, (hsv2hsl (rgb2hsv r)).s,
        (hsv2hsl (rgb2hsv r)).l, 1⟩ := by
  cases v with
  | rgba c => simp [isRGBA] at h1
  | hsla c => simp [isHSLA] at h2
  | str s =>
      exact ⟨by simp only [toRGBA]; rw [h]; rfl, by simp only [toHSLA]; rw [h]; rfl⟩
  | rgb c =>
      exact ⟨by simp only [toRGBA]; rw [h]; rfl, by simp only [toHSLA]; rw [h]; rfl⟩
  | hsv c =>
      exact ⟨by simp only [toRGBA]; rw [h]; rfl, by simp only [toHSLA]; rw [h]; rfl⟩
  | hsl c =>
      exact ⟨by simp only [toRGBA]; rw [h]; rfl, by simp only [toHSLA]; rw [h]; rfl⟩
  | cmyk c =>
      exact ⟨by simp only [toRGBA]; rw [h]; rfl, by simp only [toHSLA]; rw [h]; rfl⟩
  | pojo c => exact Except.noConfusion h
  | other => exact Except.noConfusion h

/-- C8 witness. -/
theorem C8_witness :
    toRGBA (.rgb ⟨1, 2, 3⟩) none = .ok ⟨(1 : ℚ), 2, 3, 0⟩ ∧
    toHSLA (.rgb ⟨1, 2, 3⟩) none =
      .ok ⟨(hsv2hsl (rgb2hsv ⟨1, 2, 3⟩)).h, (hsv2hsl (rgb2hsv ⟨1, 2, 3⟩)).s,
        (hsv2hsl (rgb2hsv ⟨1, 2, 3⟩)).l, 1⟩ :=
  C8_default_alpha (.rgb ⟨1, 2, 3⟩) ⟨1, 2, 3⟩ rfl rfl rfl

/-- C9, counterexample: on a non-color, isDark is indeed undefined, but
isLight is the JS negation of undefined, i.e. the boolean true, not an
absent result as claimed. -/
theorem C9_counterexample :
    isColor (.str "nope") = false ∧ isDark (.str "nope") = none ∧
    isLight (.str "nope") = true :=
  ⟨by decide, by decide, by decide⟩

/-- C9, amended: on a non-color, isDark returns the absent result and isLight
returns the boolean true; on a valid color, isLight is the exact logical
negation of isDark. -/
theorem C9_isDark_isLight (v : ColorVal) :
    (isColor v = false → isDark v = none ∧ isLight v = true) ∧
    (isColor v = true → ∃ b, isDark v = some b ∧ isLight v = !b) := by
  constructor
  · intro h
    have hd : isDark v = none := by simp [isDark, h]
    exact ⟨hd, by simp [isLight, hd]⟩
  · intro h
    obtain ⟨c, hc⟩ := (toRGB_isColor v).1 h
    refine ⟨decide ((c.r * 299 + c.g * 587 + c.b * 114) / 1000 < 128), ?_, ?_⟩
    · simp [isDark, h, hc]
    · have hd : isDark v =
          some (decide ((c.r * 299 + c.g * 587 + c.b * 114) / 1000 < 128)) := by
        simp [isDark, h, hc]
      simp [isLight, hd]

/-- C9 witness. -/
theorem C9_witness :
    (isDark (.str "zzz") = none ∧ isLight (.str "zzz") = true) ∧
    (∃ b, isDark (.rgb ⟨0, 0, 0⟩) = some b ∧ isLight (.rgb ⟨0, 0, 0⟩) = !b) :=
  ⟨(C9_isDark_isLight (.str "zzz")).1 (by decide),
   (C9_isDark_isLight (.rgb ⟨0, 0, 0⟩)).2 (by decide)⟩

/-- C10: the websafe dispatcher has no HSLA branch, so every HSLA value falls
through to the unrecognized-kind pass-through and is returned unchanged, never
snapped to web-safe channels. -/
theorem C10_websafe_hsla_unchanged (x : HSLA) :
    websafe (.hsla x) = .ok (.hsla x) := rfl

/-- C3, refuted on the code (code bug): at lighten("#000000", 5) the do-while
loop never terminates.  Every iteration k computes a string of length below 7
(the red channel, clamp(5 - k), never reaches 16, so the packed value never
reaches 16^5), hence the source loops forever; the model returns ok none. -/
theorem C3_lighten_black_diverges :
    (∀ k : ℕ, (lightenCalc "#000000" (lightenStep 5 k)).length < 7) ∧
    lighten (.str "#000000") 5 = .ok none := by
  constructor
  · intro k
    by_cases hk : k ≤ 5
    · interval_cases k <;> decide
    · have hred : ∀ a : ℤ, lightenCalc "#000000" a =
          String.mk ('#' :: jsToString16 (jsOr (jsOr (clamp255 (0 + a))
            (jsShl (clamp255 (0 + a)) 8)) (jsShl (clamp255 (0 + a)) 16))) := fun _ => rfl
      have hstep : lightenStep 5 k = 5 - k := rfl
      rw [hred (lightenStep 5 k), hstep]
      have h1 : clamp255 (0 + ((5 : ℤ) - k)) = 0 := by
        simp only [clamp255]
        rw [if_neg (by omega), if_pos (by omega)]
      rw [h1]
      decide
  · decide

end ColorLib

namespace ColorLib

/-- Helper: range of the hue produced by the rgb2hsv branch structure. -/
lemma hue_cases (r g b M m delta : ℚ) (hM : M = max r (max g b))
    (hm : m = min r (min g b)) (hd : delta = M - m) :
    0 ≤ (if M = m then (0 : ℚ)
      else if M = r ∧ b ≤ g then 60 * ((g - b) / delta)
      else if M = r ∧ g < b then 60 * ((g - b) / delta) + 360
      else if M = g then 60 * ((b - r) / delta) + 120
      else if M = b then 60 * ((r - g) / delta) + 240
      else 0) ∧
    (if M = m then (0 : ℚ)
      else if M = r ∧ b ≤ g then 60 * ((g - b) / delta)
      else if M = r ∧ g < b then 60 * ((g - b) / delta) + 360
      else if M = g then 60 * ((b - r) / delta) + 120
      else if M = b then 60 * ((r - g) / delta) + 240
      else 0) < 360 := by
  have hrM : r ≤ M := by rw [hM]; exact le_max_left _ _
  have hgM : g ≤ M := by rw [hM]; exact le_max_of_le_right (le_max_left _ _)
  have hbM : b ≤ M := by rw [hM]; exact le_max_of_le_right (le_max_right _ _)
  have hmr : m ≤ r := by rw [hm]; exact min_le_left _ _
  have hmg : m ≤ g := by rw [hm]; exact le_trans (min_le_right _ _) (min_le_left _ _)
  have hmb : m ≤ b := by rw [hm]; exact le_trans (min_le_right _ _) (min_le_right _ _)
  split_ifs with h1 h2 h3 h4 h5
  · norm_num
  all_goals (
    have hdpos : 0 < delta := by
      rw [hd]
      rcases lt_or_eq_of_le (le_trans hmr hrM) with hlt | heq
      · linarith
      · exact absurd heq.symm h1)
  · -- M = r, b ≤ g
    obtain ⟨hMr, hbg⟩ := h2
    have q1 : 0 ≤ (g - b) / delta := div_nonneg (by linarith) hdpos.le
    have q2 : (g - b) / delta ≤ 1 := div_le_one_of_le₀ (by linarith) hdpos.le
    constructor <;> nlinarith
  · -- M = r, g < b
    obtain ⟨hMr, hgb⟩ := h3
    have q1 : -1 ≤ (g - b) / delta := (le_div_iff₀ hdpos).mpr (by linarith)
    have q2 : (g - b) / delta < 0 := div_neg_of_neg_of_pos (by linarith) hdpos
    constructor <;> nlinarith
  · -- M = g
    have q1 : -1 ≤ (b - r) / delta := (le_div_iff₀ hdpos).mpr (by linarith)
    have q2 : (b - r) / delta ≤ 1 := div_le_one_of_le₀ (by linarith) hdpos.le
    constructor <;> nlinarith
  · -- M = b
    have q1 : -1 ≤ (r - g) / delta := (le_div_iff₀ hdpos).mpr (by linarith)
    have q2 : (r - g) / delta ≤ 1 := div_le_one_of_le₀ (by linarith) hdpos.le
    constructor <;> nlinarith
  · norm_num

/-- The hue component of rgb2hsv, written out. -/
lemma rgb2hsv_h_def (x : RGB) :
    (rgb2hsv x).h =
      (if max (x.r / 255) (max (x.g / 255) (x.b / 255)) = min (x.r / 255) (min (x.g / 255) (x.b / 255)) then (0 : ℚ)
       else if max (x.r / 255) (max (x.g / 255) (x.b / 255)) = x.r / 255 ∧ x.b / 255 ≤ x.g / 255 then
         60 * ((x.g / 255 - x.b / 255) / (max (x.r / 255) (max (x.g / 255) (x.b / 255)) - min (x.r / 255) (min (x.g / 255) (x.b / 255))))
       else if max (x.r / 255) (max (x.g / 255) (x.b / 255)) = x.r / 255 ∧ x.g / 255 < x.b / 255 then
         60 * ((x.g / 255 - x.b / 255) / (max (x.r / 255) (max (x.g / 255) (x.b / 255)) - min (x.r / 255) (min (x.g / 255) (x.b / 255)))) + 360
       else if max (x.r / 255) (max (x.g / 255) (x.b / 255)) = x.g / 255 then
         60 * ((x.b / 255 - x.r / 255) / (max (x.r / 255) (max (x.g / 255) (x.b / 255)) - min (x.r / 255) (min (x.g / 255) (x.b / 255)))) + 120
       else if max (x.r / 255) (max (x.g / 255) (x.b / 255)) = x.b / 255 then
         60 * ((x.r / 255 - x.g / 255) / (max (x.r / 255) (max (x.g / 255) (x.b / 255)) - min (x.r / 255) (min (x.g / 255) (x.b / 255)))) + 240
       else 0) := rfl

/-- C6: for every RGB record with integer channels in 0..255, the rgb2hsv hue
lies in [0, 360): it is 0 when max equals min, and every branch formula,
including the one that adds 360, stays strictly below 360. -/
theorem C6_rgb2hsv_hue_in_range (r g b : ℕ) (hr : r ≤ 255) (hg : g ≤ 255)
    (hb : b ≤ 255) :
    0 ≤ (rgb2hsv ⟨(r : ℚ), (g : ℚ), (b : ℚ)⟩).h ∧
    (rgb2hsv ⟨(r : ℚ), (g : ℚ), (b : ℚ)⟩).h < 360 ∧
    (r = g ∧ g = b → (rgb2hsv ⟨(r : ℚ), (g : ℚ), (b : ℚ)⟩).h = 0) := by
  have key := hue_cases ((r : ℚ) / 255) ((g : ℚ) / 255) ((b : ℚ) / 255)
    (max ((r : ℚ) / 255) (max ((g : ℚ) / 255) ((b : ℚ) / 255)))
    (min ((r : ℚ) / 255) (min ((g : ℚ) / 255) ((b : ℚ) / 255)))
    (max ((r : ℚ) / 255) (max ((g : ℚ) / 255) ((b : ℚ) / 255)) -
      min ((r : ℚ) / 255) (min ((g : ℚ) / 255) ((b : ℚ) / 255))) rfl rfl rfl
  refine ⟨key.1, key.2, ?_⟩
  rintro ⟨rfl, rfl⟩
  rw [rgb2hsv_h_def]
  rw [if_pos (by simp)]

/-- C6 witness. -/
theorem C6_witness :
    0 ≤ (rgb2hsv ⟨(200 : ℚ), (17 : ℚ), (94 : ℚ)⟩).h ∧
    (rgb2hsv ⟨(200 : ℚ), (17 : ℚ), (94 : ℚ)⟩).h < 360 ∧
    ((200 : ℕ) = 17 ∧ (17 : ℕ) = 94 → (rgb2hsv ⟨(200 : ℚ), (17 : ℚ), (94 : ℚ)⟩).h = 0) :=
  C6_rgb2hsv_hue_in_range 200 17 94 (by norm_num) (by norm_num) (by norm_num)

end ColorLib
